import Mathlib

/-!
Shallow embedding of the candidate ranking and selection engine of the
nutrivo meal-planner repository, together with theorems settling the
specification claims about it.

Embedded source files:
  app/services/scoring.py      (deterministic scorer)
  app/services/planner.py      (selection loop, fallback tiers, macro penalty)
  app/services/reranker_service.py (rerank validation, batch extraction)
  app/services/parser_service.py   (duration extraction)
  app/models.py                (data model, summary)

Python floats are modelled as rationals; Python strings as Lean strings
(token operations work on the underlying character lists); Python sets of
strings as finite sets; JSON values from the remote reranker as an
inductive type; a fallible remote call as an optional JSON value.
-/

namespace Nutrivo

/-! ## Character and string utilities

Helpers mirroring the Python primitives used by the tokenizers and
keyword scanners: str.lower, str.split, re.split on non-alphabetic runs,
substring containment, digit parsing. Char.isWhitespace covers the ASCII
whitespace relevant to the embedded data (Python str.split / str.strip
semantics on such strings).
-/

/-- Splits a character list on whitespace runs, dropping empty pieces:
Python str.split() with no argument.  The first accumulator argument
collects the current (reversed) token. -/
def splitWsAux : List Char → List Char → List (List Char)
  | [], acc => if acc = [] then [] else [acc.reverse]
  | c :: rest, acc =>
    if c.isWhitespace then
      if acc = [] then splitWsAux rest [] else acc.reverse :: splitWsAux rest []
    else splitWsAux rest (c :: acc)

/-- Whitespace-separated pieces of a character list (Python str.split). -/
def splitWs (cs : List Char) : List (List Char) := splitWsAux cs []

/-- Splits a character list into its maximal alphabetic runs, the nonempty
pieces of Python re.split applied with the non-alphabetic class. -/
def alphaRunsAux : List Char → List Char → List (List Char)
  | [], acc => if acc = [] then [] else [acc.reverse]
  | c :: rest, acc =>
    if c.isAlpha then alphaRunsAux rest (c :: acc)
    else if acc = [] then alphaRunsAux rest [] else acc.reverse :: alphaRunsAux rest []

/-- Maximal alphabetic runs of a character list. -/
def alphaRuns (cs : List Char) : List (List Char) := alphaRunsAux cs []

/-- Containment of a contiguous character sequence: Python substring test
(the "in" operator on strings). -/
def containsSub : List Char → List Char → Bool
  | [], needle => needle.isEmpty
  | c :: rest, needle => needle.isPrefixOf (c :: rest) || containsSub rest needle

/-- Substring containment on strings. -/
def strContains (hay needle : String) : Bool := containsSub hay.toList needle.toList

/-- Numeric value of a digit run (Python int() on a digit string). -/
def natOfDigits (ds : List Char) : Nat :=
  ds.foldl (fun acc c => acc * 10 + (c.toNat - '0'.toNat)) 0

/-- Whether a string has a character that is not whitespace, the truth
value of Python s.strip() used when cleaning reason strings. -/
def hasNonWs (s : String) : Bool := s.toList.any (fun c => !c.isWhitespace)

/-- Character-wise lowercase of a string: Python str.lower() on the
ASCII data handled by the tokenizers and scanners. -/
def strLower (s : String) : String := String.mk (s.toList.map Char.toLower)

/-! ## Keyword scanners

Direct scanners for the two regular expressions of the source, with
leftmost-match semantics.  Maximal munch is equivalent to the regex here:
after a maximal digit or whitespace run the following literal cannot
consume a digit resp. a space, so no backtracking can produce a
different match.
-/

/-- Match of the duration pattern (digits, optional spaces, optional
hyphen, optional spaces, literal "day") anchored at the head of the
list; yields the numeric value of the digit group. -/
def matchDayAt (l : List Char) : Option Nat :=
  let ds := l.takeWhile Char.isDigit
  if ds = [] then none
  else
    let rest := (l.drop ds.length).dropWhile Char.isWhitespace
    let rest2 := match rest with
      | '-' :: r => r
      | _ => rest
    let rest3 := rest2.dropWhile Char.isWhitespace
    if ("day".toList).isPrefixOf rest3 then some (natOfDigits ds) else none

/-- Leftmost match of the duration pattern: re.search in
QueryParser._extract_duration. -/
def durationScan : List Char → Option Nat
  | [] => none
  | c :: rest =>
    match matchDayAt (c :: rest) with
    | some n => some n
    | none => durationScan rest

/-- Match of the pattern "under-(digits)-minutes" anchored at the head of
the list. -/
def matchUnderAt (l : List Char) : Option Nat :=
  if ("under-".toList).isPrefixOf l then
    let rest := l.drop 6
    let ds := rest.takeWhile Char.isDigit
    if ds = [] then none
    else if ("-minutes".toList).isPrefixOf (rest.drop ds.length) then
      some (natOfDigits ds)
    else none
  else none

/-- Leftmost match of "under-(digits)-minutes": re.search in
scoring._extract_quick_threshold. -/
def underScan : List Char → Option Nat
  | [] => none
  | c :: rest =>
    match matchUnderAt (c :: rest) with
    | some n => some n
    | none => underScan rest

/-! ## Data model (app/models.py)

Recipe, ParsedQuery and the nutrition record, with Python ints as
integers and Python lists as Lean lists.  original_data and image are
not consumed by the ranking core and are omitted.
-/

/-- Nutrition tuple of a recipe (app/models.py NutritionalInfo). -/
structure NutritionalInfo where
  calories : Int
  protein : Int
  carbs : Int
  fat : Int
deriving DecidableEq

/-- Normalized recipe record (app/models.py Recipe). -/
structure Recipe where
  id : String
  title : String
  ready_in_minutes : Int
  servings : Int
  diets : List String
  dish_types : List String
  ingredients : List String
  instructions : List String
  nutrition : NutritionalInfo
  source_api : String
deriving DecidableEq

/-- Structured query produced by the parser (app/models.py ParsedQuery).
clarified_intent is not consumed by the ranking core and is omitted. -/
structure ParsedQuery where
  days : Nat
  diets : List String
  calories : Option Int
  exclude : List String
  preferences : List String
  meals_per_day : Nat
deriving DecidableEq

/-! ## Deterministic scorer (app/services/scoring.py)

score_recipe with Python floats as rationals.  The repetition context is
the dictionary built by the planner with the two keys
recent_ingredient_tokens and recent_dish_types; Python sets of strings
are finite sets.  The expressions "x or 0" of the source are identities
on the integer nutrition fields and are dropped.
-/

/-- Repetition context handed to the scorer by the selection loop. -/
structure ScoreContext where
  recent_ingredient_tokens : Finset String
  recent_dish_types : Finset String
deriving DecidableEq

/-- Ingredient tokens of the scorer (scoring._ingredient_tokens):
maximal alphabetic runs of the lowercased ingredient of length at least
three, collected into a set. -/
def scoring_ingredient_tokens (ingredients : List String) : Finset String :=
  ingredients.foldl
    (fun ts ing =>
      (alphaRuns (strLower ing).toList).foldl
        (fun ts t => if 3 ≤ t.length then insert (String.mk t) ts else ts) ts)
    ∅

/-- Quick-cook threshold (scoring._extract_quick_threshold): the first
preference matching "under-(digits)-minutes" wins, else a literal
"quick" preference means 20 minutes. -/
def extract_quick_threshold (preferences : List String) : Option Nat :=
  match preferences.findSome? (fun pref => underScan pref.toList) with
  | some n => some n
  | none => if "quick" ∈ preferences then some 20 else none

/-- Context-free part of scoring.score_recipe (everything before the
repetition penalties): preference keyword boosts, macro alignment, quick
time alignment and the budget boost.  The replacement of hyphens by
spaces renders Python pref.replace("-", " ") for the single-character
pattern. -/
def score_pre_diversity (recipe : Recipe) (parsed : ParsedQuery) : ℚ :=
  let recipeText :=
    strLower (String.intercalate " "
      [recipe.title,
       String.intercalate " " recipe.ingredients,
       String.intercalate " " recipe.dish_types,
       String.intercalate " " recipe.diets])
  let s0 : ℚ :=
    parsed.preferences.foldl
      (fun s pref =>
        let prefNorm := strLower (String.mk (pref.toList.map (fun c => if c = '-' then ' ' else c)))
        if prefNorm ≠ "" ∧ strContains recipeText prefNorm = true then s + 1 else s)
      0
  let s1 :=
    if "high-protein" ∈ parsed.preferences then
      s0 + min (5/2 : ℚ) ((recipe.nutrition.protein : ℚ) / 20)
    else s0
  let s2 :=
    if "low-carb" ∈ parsed.preferences then
      s1 - min (5/2 : ℚ) ((recipe.nutrition.carbs : ℚ) / 20)
    else s1
  let s3 :=
    match extract_quick_threshold parsed.preferences with
    | some n =>
      if recipe.ready_in_minutes ≠ 0 ∧ (n : Int) < recipe.ready_in_minutes then
        s2 - ((recipe.ready_in_minutes : ℚ) - (n : ℚ)) / 10
      else s2
    | none => s2
  if "budget-friendly" ∈ parsed.preferences then
    s3 + ((max 0 (6 - (recipe.ingredients.length : Int)) : Int) : ℚ) * (1/5)
  else s3

/-- Deterministic score of a recipe (scoring.score_recipe): the
context-free part followed by the two repetition penalties against the
previous day's ingredient tokens and dish types. -/
def score_recipe (recipe : Recipe) (parsed : ParsedQuery) (ctx : ScoreContext) : ℚ :=
  let s4 := score_pre_diversity recipe parsed
  let s5 :=
    if ctx.recent_ingredient_tokens ≠ ∅ then
      let rtoks := scoring_ingredient_tokens recipe.ingredients
      if rtoks ≠ ∅ then
        s4 - ((rtoks ∩ ctx.recent_ingredient_tokens).card : ℚ) / ((max 1 rtoks.card : Nat) : ℚ) * 2
      else s4
    else s4
  if ctx.recent_dish_types ≠ ∅ ∧ recipe.dish_types ≠ [] then
    s5 - (1/2) * (((recipe.dish_types.toFinset ∩ ctx.recent_dish_types).card : ℚ))
  else s5

/-! ## Macro balance evaluator (app/services/planner.py) -/

/-- Running per-day macro totals. -/
structure DayMacros where
  protein : Int
  carbs : Int
  fat : Int
deriving DecidableEq

/-- Macro accumulation after a pick (MealPlanner._update_macros). -/
def update_macros (dm : DayMacros) (n : NutritionalInfo) : DayMacros :=
  ⟨dm.protein + n.protein, dm.carbs + n.carbs, dm.fat + n.fat⟩

/-- Hypothetical macro total if the candidate were added. -/
def macro_total (dm : DayMacros) (n : NutritionalInfo) : Int :=
  (dm.protein + n.protein) + (dm.carbs + n.carbs) + (dm.fat + n.fat)

/-- Protein share of the hypothetical totals. -/
def protein_frac (dm : DayMacros) (n : NutritionalInfo) : ℚ :=
  ((dm.protein + n.protein : Int) : ℚ) / ((macro_total dm n : Int) : ℚ)

/-- Carbohydrate share of the hypothetical totals. -/
def carbs_frac (dm : DayMacros) (n : NutritionalInfo) : ℚ :=
  ((dm.carbs + n.carbs : Int) : ℚ) / ((macro_total dm n : Int) : ℚ)

/-- Fat share of the hypothetical totals. -/
def fat_frac (dm : DayMacros) (n : NutritionalInfo) : ℚ :=
  ((dm.fat + n.fat : Int) : ℚ) / ((macro_total dm n : Int) : ℚ)

/-- Penalty for pushing the hypothetical macro ratios outside the target
bands (MealPlanner._macro_balance_penalty).  The sequential penalty
accumulations of the source sum the six conditional contributions; the
decimal weights and band limits appear as the equal rationals. -/
def macro_balance_penalty (dm : DayMacros) (n : NutritionalInfo) : ℚ :=
  if macro_total dm n ≤ 0 then 0
  else
    (if protein_frac dm n < 1/5 then (1/5 - protein_frac dm n) * 5 else 0) +
    (if 9/20 < protein_frac dm n then (protein_frac dm n - 9/20) * 5 else 0) +
    (if carbs_frac dm n < 1/4 then (1/4 - carbs_frac dm n) * 4 else 0) +
    (if 3/5 < carbs_frac dm n then (carbs_frac dm n - 3/5) * 4 else 0) +
    (if fat_frac dm n < 3/20 then (3/20 - fat_frac dm n) * 4 else 0) +
    (if 2/5 < fat_frac dm n then (fat_frac dm n - 2/5) * 4 else 0)

/-! ## Ranking (MealPlanner._rank_candidates)

The source sorts the scored pairs by the key (-score, recipe id) with
the stable Python list sort; insertion sort by the matching total
preorder is stable and ascending by the same key, and therefore produces
the same list.
-/

/-- Lexicographic order on recipe ids: the Python string comparison by
code points, stated on the underlying character lists. -/
def id_le (a b : String) : Prop := a.data ≤ b.data

/-- Total preorder on scored candidates corresponding to the Python sort
key (-score, recipe id): higher score first, ties by id ascending. -/
def rankLE (a b : ℚ × Recipe) : Prop :=
  b.1 < a.1 ∨ (a.1 = b.1 ∧ id_le a.2.id b.2.id)

instance : DecidableRel rankLE := fun a b => by
  unfold rankLE id_le; infer_instance

instance : IsTotal (ℚ × Recipe) rankLE := by
  constructor
  intro a b
  rcases lt_trichotomy a.1 b.1 with h | h | h
  · exact Or.inr (Or.inl h)
  · rcases le_total a.2.id.data b.2.id.data with hid | hid
    · exact Or.inl (Or.inr ⟨h, hid⟩)
    · exact Or.inr (Or.inr ⟨h.symm, hid⟩)
  · exact Or.inl (Or.inl h)

instance : IsTrans (ℚ × Recipe) rankLE := by
  constructor
  rintro a b c (hab | ⟨hab, hab2⟩) (hbc | ⟨hbc, hbc2⟩)
  · exact Or.inl (hbc.trans hab)
  · exact Or.inl (hbc ▸ hab)
  · exact Or.inl (hab ▸ hbc)
  · refine Or.inr ⟨hab.trans hbc, ?_⟩
    exact le_trans (show a.2.id.data ≤ b.2.id.data from hab2)
      (show b.2.id.data ≤ c.2.id.data from hbc2)

/-- Combined deterministic score used by the ranking step: base score
minus macro balance penalty. -/
def combined_score (parsed : ParsedQuery) (ctx : ScoreContext) (dm : DayMacros)
    (r : Recipe) : ℚ :=
  score_recipe r parsed ctx - macro_balance_penalty dm r.nutrition

/-- Ranked candidate list (MealPlanner._rank_candidates): scored pairs
sorted by score descending with id-ascending tie-break. -/
def rank_candidates (candidates : List Recipe) (parsed : ParsedQuery)
    (ctx : ScoreContext) (dm : DayMacros) : List (ℚ × Recipe) :=
  match candidates with
  | [] => []
  | _ =>
    List.insertionSort rankLE
      (candidates.map (fun r => (combined_score parsed ctx dm r, r)))

/-- Deterministic pick (MealPlanner._pick_best_recipe when _should_rerank
declines — reranking disabled, a non-per_meal mode, or fewer than two
ranked candidates): the head of the ranked list with absent reasons, or
nothing for an empty ranking. -/
def pick_best_recipe_disabled (cands : List Recipe) (p : ParsedQuery)
    (ctx : ScoreContext) (dm : DayMacros) : Option Recipe × Option (List String) :=
  match rank_candidates cands p ctx dm with
  | [] => (none, none)
  | (_, r) :: _ => (some r, none)

/-! ## Reranker (app/services/reranker_service.py)

JSON values returned by the remote call are an inductive type; a remote
call that raises or whose content fails to parse is the absent optional
value (RerankerService._call_llm returns None on any exception).  The
cache internals (hash key, TTL bookkeeping) are abstracted into the
optional value that _cache_get produced for this call; storing a fresh
result back into the cache does not affect the returned pair and is not
modelled.  The payload and prompt builders only shape the remote
request, never the validation of the response, and are not modelled.
-/

/-- JSON value of a parsed remote response. -/
inductive JVal where
  | jnull
  | jbool (b : Bool)
  | jnum (q : ℚ)
  | jstr (s : String)
  | jarr (xs : List JVal)
  | jobj (fields : List (String × JVal))

/-- First-match association lookup: dict.get on a parsed JSON object
(JSON object keys are unique). -/
def assocGet : List (String × JVal) → String → Option JVal
  | [], _ => none
  | (k, v) :: rest, key => if k = key then some v else assocGet rest key

/-- Python truthiness of a JSON value. -/
def jvalTruthy : JVal → Bool
  | .jnull => false
  | .jbool b => b
  | .jnum q => q ≠ 0
  | .jstr s => s ≠ ""
  | .jarr xs => !xs.isEmpty
  | .jobj fs => !fs.isEmpty

/-- Membership test of a JSON value in a set of candidate id strings
(Python "x in candidate_ids" for a set of strings).  A string is tested
by equality; a hashable non-string (null from a missing key, a bool or
a number) is simply not a member; an unhashable value (a JSON array or
object) makes the set-membership test raise an uncaught TypeError,
modelled as the error outcome. -/
def jval_in_ids (v : Option JVal) (ids : List String) : Except Unit (Option String) :=
  match v with
  | some (.jstr s) => .ok (if s ∈ ids then some s else none)
  | some (.jarr _) => .error ()
  | some (.jobj _) => .error ()
  | _ => .ok none

/-- Validated id of a remote result (RerankerService._choose_valid_id):
the selected id if it is among the candidate ids, else the backup id if
it is, else nothing; a non-object result yields nothing.  The selected
id is tested first, so an unhashable selected id raises before the
backup id is looked at, and a valid selected id never exposes an
unhashable backup id. -/
def choose_valid_id (result : JVal) (candidateIds : List String) :
    Except Unit (Option String) :=
  match result with
  | .jobj fs =>
    match jval_in_ids (assocGet fs "selected_id") candidateIds with
    | .error e => .error e
    | .ok (some s) => .ok (some s)
    | .ok none => jval_in_ids (assocGet fs "backup_id") candidateIds
  | _ => .ok none

/-- Reason extraction (RerankerService._extract_reasons): the non-empty
string entries of the reasons list, or absent when the field is missing,
not a list, or cleans to nothing. -/
def extract_reasons (result : JVal) : Option (List String) :=
  match result with
  | .jobj fs =>
    match assocGet fs "reasons" with
    | some (.jarr xs) =>
      let cleaned := xs.filterMap (fun v =>
        match v with
        | .jstr s => if hasNonWs s then some s else none
        | _ => none)
      if cleaned = [] then none else some cleaned
    | _ => none
  | _ => none

/-- Outcome of validating one remote result against the candidate ids:
the checks following the cache lookup and the fresh call share this
shape (chosen truthy: use it with extracted reasons; otherwise the
deterministic fallback with absent reasons).  Python "if chosen:" is
false for the empty string.  A TypeError raised by the membership test
inside _choose_valid_id propagates. -/
def validated_choice (result : JVal) (candidateIds : List String)
    (fallbackId : String) : Except Unit (String × Option (List String)) :=
  match choose_valid_id result candidateIds with
  | .error e => .error e
  | .ok (some s) =>
    .ok (if s = "" then (fallbackId, none) else (s, extract_reasons result))
  | .ok none => .ok (fallbackId, none)

/-- Single-slot rerank (RerankerService.rerank) over the outcome of the
cache lookup and of the remote call.  clientOk models the presence of a
configured remote backend (ai_service.client).  The error outcome is the
uncaught TypeError escaping rerank when a validated payload carries an
unhashable id. -/
def rerank (candidates : List Recipe) (fallbackId : String) (clientOk : Bool)
    (cached : Option JVal) (llmResult : Option JVal) :
    Except Unit (String × Option (List String)) :=
  if candidates.length < 2 then .ok (fallbackId, none)
  else if !clientOk then .ok (fallbackId, none)
  else
    let candidateIds := candidates.map (·.id)
    let fresh : Except Unit (String × Option (List String)) :=
      match llmResult with
      | none => .ok (fallbackId, none)
      | some r =>
        if !jvalTruthy r then .ok (fallbackId, none)
        else validated_choice r candidateIds fallbackId
    match cached with
    | some c => if jvalTruthy c then validated_choice c candidateIds fallbackId else fresh
    | none => fresh

/-- Selection mapping extracted from a batched remote response
(RerankerService.rerank_batch, response handling): on a failed call or a
falsy parsed body the mapping is empty ("if not result: return {}"); a
truthy parsed body that is not a JSON object makes result.get raise an
uncaught AttributeError, modelled as the error outcome; a truthy object
without a selections list yields the empty mapping; otherwise the object
entries of the list are keyed by their non-empty meal_slot string.
Later entries overwrite earlier ones as in the Python dict; the list
stores the latest entry first so that the first-match lookup agrees. -/
def rerank_batch_extract (llmResult : Option JVal) : Except Unit (List (String × JVal)) :=
  match llmResult with
  | none => .ok []
  | some r =>
    if !jvalTruthy r then .ok []
    else
      match r with
      | .jobj fs =>
        match assocGet fs "selections" with
        | some (.jarr items) =>
          .ok (items.foldl
            (fun out item =>
              match item with
              | .jobj ifs =>
                match assocGet ifs "meal_slot" with
                | some (.jstr ms) => if ms ≠ "" then (ms, item) :: out else out
                | _ => out
              | _ => out)
            [])
        | _ => .ok []
      | _ => .error ()

/-! ## Selection loop (app/services/planner.py, generate_meal_plan)

Embedding of the per-day selection loop in both execution modes:
the non-batch mode with reranking disabled (the deterministic path
through _pick_best_recipe), and the batch mode (per_day / per_plan) that
collects entries during the day and commits them in _finalize_batch_day
from the single batched response.  The per-day state is threaded
explicitly; candidate retrieval for a fixed request is a function from
the meal type to the recipe list.  The selected-titles, main-ingredient
and cuisine histories are threaded by the source only into the remote
rerank payload (the "history" field) and into nothing else, so they are
omitted here together with the payload builders.
-/

/-- Ingredient tokens of the planner (MealPlanner._ingredient_tokens):
whitespace-separated pieces of the lowercased ingredient of length at
least three.  Unlike the scorer tokenizer this keeps digits and
punctuation inside tokens. -/
def planner_ingredient_tokens (ingredients : List String) : Finset String :=
  ingredients.foldl
    (fun ts ing =>
      (splitWs (strLower ing).toList).foldl
        (fun ts t => if 3 ≤ t.length then insert (String.mk t) ts else ts) ts)
    ∅

/-- Meal-specific time limit from the preferences
(MealPlanner._extract_meal_time_limit), rules checked per preference in
order: "(meal)-under-(digits)-minutes" with a digit-only middle slice,
then "(meal)-quick" meaning 20 minutes. -/
def meal_pref_limit (mType pref : String) : Option Nat :=
  let pre := (mType ++ "-under-").toList
  let suf := "-minutes".toList
  let pcs := pref.toList
  let fromUnder :=
    if pre.isPrefixOf pcs ∧ suf.isSuffixOf pcs then
      let mid := (pcs.take (pcs.length - suf.length)).drop pre.length
      if mid ≠ [] ∧ mid.all Char.isDigit then some (natOfDigits mid) else none
    else none
  match fromUnder with
  | some n => some n
  | none => if pref = mType ++ "-quick" then some 20 else none

/-- First matching time limit over the preference list. -/
def extract_meal_time_limit (preferences : List String) (mType : String) : Option Nat :=
  preferences.findSome? (meal_pref_limit mType)

/-- Instruction normalization (MealPlanner._format_instructions) for the
list case of the source: newline join of the non-empty steps. -/
def format_instructions (instructions : List String) : String :=
  String.intercalate "\n" (instructions.filter (fun s => s ≠ ""))

/-- Emitted meal record with exactly the fields the pydantic Meal model
of app/models.py declares.  The model declares no selection_reasons
field, so the selection_reasons keyword the planner passes into the
constructor is silently dropped by pydantic and never reaches the
emitted meal. -/
structure Meal where
  meal_type : String
  recipe_name : String
  description : String
  ingredients : List String
  nutritional_info : NutritionalInfo
  preparation_time : String
  instructions : String
  source : String
deriving DecidableEq

/-- Meal constructed from a chosen recipe, as in both commit sites of
the source.  The reasons argument models the selection_reasons keyword
the planner passes; the pydantic model declares no such field, so the
argument does not reach the constructed meal. -/
def mk_meal (mType : String) (r : Recipe) (_reasons : Option (List String)) : Meal :=
  let rim := r.ready_in_minutes
  { meal_type := mType,
    recipe_name := r.title,
    description := s!"A delicious {mType}.",
    ingredients := r.ingredients,
    nutritional_info := r.nutrition,
    preparation_time := s!"{rim} mins",
    instructions := format_instructions r.instructions,
    source := r.source_api }

/-- Fallback candidate pool (generate_meal_plan fallback tiers): first
the candidates not used today and not used in the last two days, else
the candidates not used today, else every filtered candidate. -/
def fallback_pool (candidates : List Recipe) (usedToday recentIds : Finset String) :
    List Recipe :=
  let p1 := candidates.filter (fun r => decide (r.id ∉ usedToday ∧ r.id ∉ recentIds))
  if p1 ≠ [] then p1
  else
    let p2 := candidates.filter (fun r => decide (r.id ∉ usedToday))
    if p2 ≠ [] then p2 else candidates

/-- Modelled from the spec for comparison: the fallback pool as claim C4
describes it — the candidates excluding today's and the last-2-days'
used ids, then directly the full filtered candidate set, with no
intermediate tier. -/
def spec_fallback_pool (candidates : List Recipe) (usedToday recentIds : Finset String) :
    List Recipe :=
  let p1 := candidates.filter (fun r => decide (r.id ∉ usedToday ∧ r.id ∉ recentIds))
  if p1 ≠ [] then p1 else candidates

/-- Per-day constants of the selection loop: day number (one-based),
the parsed query, candidate retrieval for this request, the previous
day's recency context, and the union of the last two days' used ids. -/
structure DayCtx where
  dayNum : Nat
  parsed : ParsedQuery
  getCandidates : String → List Recipe
  prevDayTokens : Finset String
  prevDayDishTypes : Finset String
  recentIds : Finset String

/-- Mutable per-day selection state threaded through the slots. -/
structure DayAcc where
  usedRecipes : Finset String
  usedToday : Finset String
  dayTokens : Finset String
  dayDishTypes : Finset String
  dayMacros : DayMacros
  meals : List Meal
  warnings : List String
  defaults : List String
deriving DecidableEq

/-- Warning recorded when the time-limit filter empties the slot. -/
def time_relax_warning (day : Nat) (mType : String) (limit : Nat) : String :=
  s!"No {mType} recipes found under {limit} mins on day {day}; relaxing time constraint."

/-- Warning recorded when a slot stays empty. -/
def no_candidates_warning (day : Nat) (mType : String) : String :=
  s!"No candidates found for {mType} on day {day}"

/-- Applied default recorded when a fallback pool produced the pick. -/
def reused_pool_default (day : Nat) (mType : String) : String :=
  s!"Reused recipe pool for {mType} on day {day}"

/-- Slot identifier. -/
def meal_slot_id (day : Nat) (mType : String) : String :=
  s!"day{day}:{mType}"

/-- Candidate retrieval plus the meal-time-limit filter shared by both
modes; yields the filtered candidates and the relaxation warning when
filtering would empty the set.  A limit of zero is falsy in the source
and disables filtering; a recipe with zero preparation minutes is falsy
and never passes the filter. -/
def time_filtered (dc : DayCtx) (mType : String) : List Recipe × List String :=
  let candidates := dc.getCandidates mType
  match extract_meal_time_limit dc.parsed.preferences mType with
  | some n =>
    if n = 0 then (candidates, [])
    else
      let limited := candidates.filter
        (fun r => decide (r.ready_in_minutes ≠ 0 ∧ r.ready_in_minutes ≤ (n : Int)))
      if limited = [] then (candidates, [time_relax_warning dc.dayNum mType n])
      else (limited, [])
  | none => (candidates, [])

/-- Ranked list for a slot with the fallback tiers applied when the
primary pool (candidates never used in the plan) is empty; the flag
records whether a fallback pool produced the ranking, exactly the
used_fallback bookkeeping of the source (both modes share this shape). -/
def slot_ranked (dc : DayCtx) (acc : DayAcc) (candidates : List Recipe) :
    List (ℚ × Recipe) × Bool :=
  let ctx : ScoreContext := ⟨dc.prevDayTokens, dc.prevDayDishTypes⟩
  let available := candidates.filter (fun r => decide (r.id ∉ acc.usedRecipes))
  match rank_candidates available dc.parsed ctx acc.dayMacros with
  | [] =>
    let pool := fallback_pool candidates acc.usedToday dc.recentIds
    let rf := rank_candidates pool dc.parsed ctx acc.dayMacros
    (rf, !rf.isEmpty)
  | ranked => (ranked, false)

/-- State updates after a successful pick, shared by both modes:
global-used and today-used sets, day ingredient tokens, day dish types,
running macros. -/
def acc_commit (acc : DayAcc) (r : Recipe) : DayAcc :=
  { acc with
    usedRecipes := insert r.id acc.usedRecipes,
    usedToday := insert r.id acc.usedToday,
    dayTokens := acc.dayTokens ∪ planner_ingredient_tokens r.ingredients,
    dayDishTypes := acc.dayDishTypes ∪ r.dish_types.toFinset,
    dayMacros := update_macros acc.dayMacros r.nutrition }

/-- Slot processing shared verbatim by the two mode branches of
generate_meal_plan: time filtering with its warning, ranking with the
fallback tiers and the applied-default record, then the state commit of
the deterministic winner.  Yields the updated state and, on a pick, the
winner together with the full ranked list (the meal construction of the
non-batch branch and the entry construction of the batch branch differ
and stay in the callers). -/
def slot_core (dc : DayCtx) (acc : DayAcc) (mType : String) :
    DayAcc × Option (Recipe × List (ℚ × Recipe)) :=
  let tf := time_filtered dc mType
  let acc1 := { acc with warnings := acc.warnings ++ tf.2 }
  match slot_ranked dc acc1 tf.1 with
  | ([], _) =>
    ({ acc1 with warnings := acc1.warnings ++ [no_candidates_warning dc.dayNum mType] },
     none)
  | ((s, r) :: rest, usedFb) =>
    let acc2 :=
      if usedFb then
        { acc1 with defaults := acc1.defaults ++ [reused_pool_default dc.dayNum mType] }
      else acc1
    (acc_commit acc2 r, some (r, (s, r) :: rest))

/-- One slot of the non-batch path with reranking disabled: the
deterministic winner of the ranked slot is committed together with its
meal (selection reasons absent); an empty final pool records a warning
and leaves the slot empty. -/
def slot_single (dc : DayCtx) (acc : DayAcc) (mType : String) : DayAcc :=
  match slot_core dc acc mType with
  | (acc2, none) => acc2
  | (acc2, some (r, _)) => { acc2 with meals := acc2.meals ++ [mk_meal mType r none] }

/-- The non-batch day loop over the meal slots. -/
def run_day_single (dc : DayCtx) : List String → DayAcc → DayAcc
  | [], acc => acc
  | m :: ms, acc => run_day_single dc ms (slot_single dc acc m)

/-- Entry collected for a slot in batch mode.  The constraints and
history dictionaries of the source entry feed only the remote payload
builder and are omitted. -/
structure BatchEntry where
  meal_slot : String
  meal_type : String
  candidates : List Recipe
  scores_by_id : List (String × ℚ)
  fallback_id : String
  ranked : List (ℚ × Recipe)

/-- One slot of the batch path: the deterministic winner is committed
provisionally into the day state and the slot entry is collected for the
batched rerank call. -/
def slot_batch (dc : DayCtx) (topK : Nat) (acc : DayAcc) (mType : String) :
    DayAcc × Option BatchEntry :=
  match slot_core dc acc mType with
  | (acc2, none) => (acc2, none)
  | (acc2, some (r, ranked)) =>
    let k := min topK ranked.length
    let entry : BatchEntry :=
      { meal_slot := meal_slot_id dc.dayNum mType,
        meal_type := mType,
        candidates := (ranked.take k).map (·.2),
        scores_by_id := (ranked.take k).map (fun p => (p.2.id, p.1)),
        fallback_id := r.id,
        ranked := ranked }
    (acc2, some entry)

/-- The batch-mode day loop: threads the provisional state and collects
the entries in slot order.  Meals are not built during this pass (they
come from the finalize step). -/
def run_day_batch (dc : DayCtx) (topK : Nat) :
    List String → DayAcc → DayAcc × List BatchEntry
  | [], acc => (acc, [])
  | m :: ms, acc =>
    match slot_batch dc topK acc m with
    | (acc1, some e) =>
      let res := run_day_batch dc topK ms acc1
      (res.1, e :: res.2)
    | (acc1, none) => run_day_batch dc topK ms acc1

/-- Output of finalizing one day from a batched response
(the selected-title, main-ingredient and cuisine aggregates of the
source feed only future rerank payloads and are omitted). -/
structure FinalizeOut where
  meals : List Meal
  usedToday : Finset String
  dayTokens : Finset String
  dayDishTypes : Finset String
deriving DecidableEq

/-- Tail of a finalize entry after the id validation: discard a falsy
chosen id, look the survivor up in the slot's ranked list, re-validate
against the ids already used, and otherwise fall back to the first
unused ranked candidate, then to the ranked head.  Returns the built
meal and the chosen recipe, or nothing when the slot stays empty. -/
def finalize_pick (entry : BatchEntry) (used : Finset String)
    (cr : Option String × Option (List String)) : Option (Meal × Recipe) :=
  let chosenT : Option String :=
    match cr.1 with
    | some s => if s = "" then none else some s
    | none => none
  let recipe0 : Option Recipe :=
    match chosenT with
    | some cid => (entry.ranked.find? (fun p => decide (p.2.id = cid))).map (·.2)
    | none => none
  let retry : Option (Recipe × Option (List String)) :=
    match entry.ranked.find? (fun p => decide (p.2.id ∉ used)) with
    | some p => some (p.2, none)
    | none =>
      match entry.ranked with
      | p :: _ => some (p.2, none)
      | [] => none
  let pick :=
    match recipe0 with
    | some r => if r.id ∈ used then retry else some (r, cr.2)
    | none => retry
  pick.map (fun pr => (mk_meal entry.meal_type pr.1 pr.2, pr.1))

/-- One entry of MealPlanner._finalize_batch_day: validate the batched
selection for the slot (selected id must be offered, else backup, else
nothing; an empty dict of results yields nothing for every slot), clean
the reasons, then finalize_pick.  The inline membership tests against
the set of offered ids raise an uncaught TypeError on an unhashable
selected or backup id, exactly as in _choose_valid_id; a slot whose
batched result is missing or not an object performs no membership test
and cannot raise. -/
def finalize_step (batchResults : List (String × JVal)) (used : Finset String)
    (entry : BatchEntry) : Except Unit (Option (Meal × Recipe)) :=
  let result : Option JVal :=
    if batchResults.isEmpty then none else assocGet batchResults entry.meal_slot
  match result with
  | some (.jobj fs) =>
    let candidateIds := entry.candidates.map (·.id)
    let cidE : Except Unit (Option String) :=
      match jval_in_ids (assocGet fs "selected_id") candidateIds with
      | .error e => .error e
      | .ok (some s) => .ok (some s)
      | .ok none => jval_in_ids (assocGet fs "backup_id") candidateIds
    match cidE with
    | .error e => .error e
    | .ok cid =>
      let rs : Option (List String) :=
        match assocGet fs "reasons" with
        | some (.jarr xs) =>
          let cleaned := xs.filterMap (fun v =>
            match v with
            | .jstr s => if hasNonWs s then some s else none
            | _ => none)
          if cleaned = [] then none else some cleaned
        | _ => none
      .ok (finalize_pick entry used (cid, rs))
  | _ => .ok (finalize_pick entry used (none, none))

/-- Appends one finalized pick to the finalize output. -/
def out_snoc (out : FinalizeOut) (meal : Meal) (r : Recipe) : FinalizeOut :=
  { meals := out.meals ++ [meal],
    usedToday := insert r.id out.usedToday,
    dayTokens := out.dayTokens ∪ planner_ingredient_tokens r.ingredients,
    dayDishTypes := out.dayDishTypes ∪ r.dish_types.toFinset }

/-- Loop of _finalize_batch_day over the collected entries, threading
the set of ids already used; a TypeError raised inside a step aborts the
day. -/
def finalize_go (batchResults : List (String × JVal)) :
    List BatchEntry → Finset String → FinalizeOut → Except Unit FinalizeOut
  | [], _, out => .ok out
  | e :: es, used, out =>
    match finalize_step batchResults used e with
    | .error er => .error er
    | .ok none => finalize_go batchResults es used out
    | .ok (some (meal, r)) =>
      finalize_go batchResults es (insert r.id used) (out_snoc out meal r)

/-- MealPlanner._finalize_batch_day. -/
def finalize_batch_day (entries : List BatchEntry) (batchResults : List (String × JVal))
    (usedRecipes : Finset String) : Except Unit FinalizeOut :=
  finalize_go batchResults entries usedRecipes ⟨[], ∅, ∅, ∅⟩

/-- Previous-day ingredient-token set as the selection loop accumulates
it: the union over the day's chosen recipes of the planner tokenizer
applied to their ingredient lists (day_ingredient_tokens.update with
MealPlanner._ingredient_tokens, rolled forward as prev_day context). -/
def prev_day_tokens (ingredientLists : List (List String)) : Finset String :=
  ingredientLists.foldl (fun s ings => s ∪ planner_ingredient_tokens ings) ∅

/-- Modelled from the spec for comparison: the previous-day set as claim
C6 describes it, built with the alphabetic-run tokenizer of the scorer
instead of the planner's whitespace-split tokenizer. -/
def spec_prev_day_tokens (ingredientLists : List (List String)) : Finset String :=
  ingredientLists.foldl (fun s ings => s ∪ scoring_ingredient_tokens ings) ∅

/-- Meal slots of a day (generate_meal_plan): breakfast, lunch, dinner,
plus a snack when more than three meals per day are requested. -/
def meal_types_for (parsed : ParsedQuery) : List String :=
  ["breakfast", "lunch", "dinner"] ++ (if 3 < parsed.meals_per_day then ["snack"] else [])

/-- Day-start selection state (generate_meal_plan, top of the day loop):
today's sets, tokens and macros are empty; the global used set and the
warning and default accumulators carry over from the previous days. -/
def day_init (used : Finset String) (warnings defaults : List String) : DayAcc :=
  { usedRecipes := used,
    usedToday := ∅,
    dayTokens := ∅,
    dayDishTypes := ∅,
    dayMacros := ⟨0, 0, 0⟩,
    meals := [],
    warnings := warnings,
    defaults := defaults }

/-! ## Summary (app/models.py MealPlanSummary, generate_meal_plan step 5) -/

/-- Summary model of app/models.py with its declared fields and their
empty defaults. -/
structure MealPlanSummary where
  total_meals : Nat
  diets : List String := []
  exclusions : List String := []
  preferences : List String := []
  estimated_cost : String
  avg_prep_time : String
  warnings : List String := []
  defaults_applied : List String := []
deriving DecidableEq

/-- Order-preserving deduplicated concatenation of preferences and diets
(the combined_preferences loop of generate_meal_plan). -/
def combined_preferences (parsed : ParsedQuery) : List String :=
  (parsed.preferences ++ parsed.diets).foldl
    (fun out item => if item ∈ out then out else out ++ [item]) []

/-- Integer value of a token as Python int() accepts it (optional sign,
then digits), else nothing (ValueError). -/
def int_of_token (t : List Char) : Option Int :=
  match t with
  | '-' :: ds =>
    if ds ≠ [] ∧ ds.all Char.isDigit then some (-(natOfDigits ds : Int)) else none
  | '+' :: ds =>
    if ds ≠ [] ∧ ds.all Char.isDigit then some ((natOfDigits ds : Int)) else none
  | ds =>
    if ds ≠ [] ∧ ds.all Char.isDigit then some ((natOfDigits ds : Int)) else none

/-- Minutes parsed back from a preparation-time display string: the
first whitespace token as an integer; a missing or non-numeric token
contributes nothing (the pass of the ValueError/IndexError handler). -/
def parse_prep_minutes (s : String) : Option Int :=
  match splitWs s.toList with
  | [] => none
  | t :: _ => int_of_token t

/-- Total meal count over the daily plans. -/
def total_meals_count (mealPlan : List (List Meal)) : Nat :=
  (mealPlan.map List.length).sum

/-- Total preparation minutes over the daily plans, skipping unparsable
displays. -/
def total_prep_minutes (mealPlan : List (List Meal)) : Int :=
  (mealPlan.map (fun day =>
    (day.map (fun m => (parse_prep_minutes m.preparation_time).getD 0)).sum)).sum

/-- Average preparation display (Python floor division). -/
def avg_prep_string (mealPlan : List (List Meal)) : String :=
  let c := total_meals_count mealPlan
  if c = 0 then "0 mins"
  else
    let avg := Int.fdiv (total_prep_minutes mealPlan) (c : Int)
    s!"{avg} mins"

/-- Summary as generate_meal_plan constructs it.  The source passes the
combined preferences under the keyword dietary_compliance, which the
pydantic model of app/models.py does not declare and silently ignores,
and omits the declared warnings, defaults_applied, diets, exclusions and
preferences fields, which therefore keep their empty defaults; the
locally accumulated warning and defaults lists are received here only to
record that they do not flow into the summary. -/
def plan_summary (mealPlan : List (List Meal)) (parsed : ParsedQuery)
    (warnings defaults : List String) : MealPlanSummary :=
  let _ := combined_preferences parsed
  let _ := warnings
  let _ := defaults
  { total_meals := total_meals_count mealPlan,
    estimated_cost := "$45-60",
    avg_prep_time := avg_prep_string mealPlan }

/-! ## Parser duration (app/services/parser_service.py) -/

/-- Requested duration in days (QueryParser._extract_duration) over the
lowercased query: any mention of "week" yields 7 days; else the leftmost
"(digits) day" match clamped from below to 1; else the default 3. -/
def extract_duration (text : String) : Nat :=
  if strContains text "next week" = true ∨ strContains text "week" = true then 7
  else
    match durationScan text.toList with
    | some v => max v 1
    | none => 3

/-- Duration of the ParsedQuery produced by QueryParser.parse when the
optional remote enhancement is absent: the rule-based extraction over
the lowercased query. -/
def parse_days (query : String) : Nat :=
  extract_duration (strLower query)

/-! ## Sample data for witnesses and counterexamples -/

/-- Parsed query with no preferences, diets or exclusions. -/
def pq0 : ParsedQuery := ⟨1, [], none, [], [], 3⟩

/-- Empty repetition context. -/
def ctx0 : ScoreContext := ⟨∅, ∅⟩

/-- Zero day macros. -/
def dm0 : DayMacros := ⟨0, 0, 0⟩

/-- Zero-nutrition sample recipe with id "a". -/
def sampleRecipeA : Recipe :=
  ⟨"a", "Recipe A", 0, 1, [], [], [], [], ⟨0, 0, 0, 0⟩, "local"⟩

/-- Zero-nutrition sample recipe with id "b". -/
def sampleRecipeB : Recipe :=
  ⟨"b", "Recipe B", 0, 1, [], [], [], [], ⟨0, 0, 0, 0⟩, "local"⟩

/-- Zero-nutrition sample recipe with the empty id. -/
def sampleRecipeE : Recipe :=
  ⟨"", "Recipe E", 0, 1, [], [], [], [], ⟨0, 0, 0, 0⟩, "local"⟩

/-- Sample recipe whose single ingredient is the bare word "egg". -/
def sampleEggRecipe : Recipe :=
  ⟨"e1", "Egg", 5, 1, [], [], ["egg"], [], ⟨0, 0, 0, 0⟩, "local"⟩

/-- Day context with no candidates for any slot. -/
def emptyDayCtx : DayCtx :=
  ⟨1, pq0, fun _ => [], ∅, ∅, ∅⟩

/-- Day context offering the two sample recipes for every slot, with
recipe "b" in the recent-two-days set. -/
def dcSample : DayCtx :=
  ⟨1, pq0, fun _ => [sampleRecipeA, sampleRecipeB], ∅, ∅, {"b"}⟩

/-- Day state in which both sample recipes are already used in the plan
and "a" was used today. -/
def accSample : DayAcc :=
  ⟨{"a", "b"}, {"a"}, ∅, ∅, ⟨0, 0, 0⟩, [], [], []⟩

/-- Remote payload carrying five reason strings. -/
def fiveReasonsResult : JVal :=
  JVal.jobj [("selected_id", JVal.jstr "a"), ("backup_id", JVal.jnull),
    ("reasons", JVal.jarr [JVal.jstr "r1", JVal.jstr "r2", JVal.jstr "r3",
      JVal.jstr "r4", JVal.jstr "r5"])]

/-- Batch entry offering the two zero-scoring sample recipes. -/
def sampleEntryAB : BatchEntry :=
  { meal_slot := "day1:breakfast",
    meal_type := "breakfast",
    candidates := [sampleRecipeA, sampleRecipeB],
    scores_by_id := [("a", 0), ("b", 0)],
    fallback_id := "a",
    ranked := [(0, sampleRecipeA), (0, sampleRecipeB)] }

/-!
## Claim theorems
-/

/-- C5: for every accumulated day-macro state and candidate nutrition
the macro balance penalty is nonnegative; a zero hypothetical total
yields exactly zero (no division by zero); and for a positive total the
penalty charges 5 per unit of protein-share deviation below 1/5 or above
9/20, 4 per unit of carb-share deviation below 1/4 or above 3/5, and 4
per unit of fat-share deviation below 3/20 or above 2/5. -/
theorem macro_balance_penalty_correct (dm : DayMacros) (n : NutritionalInfo) :
    0 ≤ macro_balance_penalty dm n ∧
    (macro_total dm n = 0 → macro_balance_penalty dm n = 0) ∧
    (0 < macro_total dm n →
      macro_balance_penalty dm n =
        5 * max 0 (1/5 - protein_frac dm n) + 5 * max 0 (protein_frac dm n - 9/20) +
        4 * max 0 (1/4 - carbs_frac dm n) + 4 * max 0 (carbs_frac dm n - 3/5) +
        4 * max 0 (3/20 - fat_frac dm n) + 4 * max 0 (fat_frac dm n - 2/5)) := by
  have key : 0 < macro_total dm n →
      macro_balance_penalty dm n =
        5 * max 0 (1/5 - protein_frac dm n) + 5 * max 0 (protein_frac dm n - 9/20) +
        4 * max 0 (1/4 - carbs_frac dm n) + 4 * max 0 (carbs_frac dm n - 3/5) +
        4 * max 0 (3/20 - fat_frac dm n) + 4 * max 0 (fat_frac dm n - 2/5) := by
    intro h
    unfold macro_balance_penalty
    rw [if_neg (not_le.mpr h)]
    have e1 : (if protein_frac dm n < 1/5 then (1/5 - protein_frac dm n) * 5 else 0) =
        5 * max 0 (1/5 - protein_frac dm n) := by
      split_ifs with hc
      · rw [max_eq_right (by linarith)]; ring
      · rw [max_eq_left (by linarith)]; ring
    have e2 : (if 9/20 < protein_frac dm n then (protein_frac dm n - 9/20) * 5 else 0) =
        5 * max 0 (protein_frac dm n - 9/20) := by
      split_ifs with hc
      · rw [max_eq_right (by linarith)]; ring
      · rw [max_eq_left (by linarith)]; ring
    have e3 : (if carbs_frac dm n < 1/4 then (1/4 - carbs_frac dm n) * 4 else 0) =
        4 * max 0 (1/4 - carbs_frac dm n) := by
      split_ifs with hc
      · rw [max_eq_right (by linarith)]; ring
      · rw [max_eq_left (by linarith)]; ring
    have e4 : (if 3/5 < carbs_frac dm n then (carbs_frac dm n - 3/5) * 4 else 0) =
        4 * max 0 (carbs_frac dm n - 3/5) := by
      split_ifs with hc
      · rw [max_eq_right (by linarith)]; ring
      · rw [max_eq_left (by linarith)]; ring
    have e5 : (if fat_frac dm n < 3/20 then (3/20 - fat_frac dm n) * 4 else 0) =
        4 * max 0 (3/20 - fat_frac dm n) := by
      split_ifs with hc
      · rw [max_eq_right (by linarith)]; ring
      · rw [max_eq_left (by linarith)]; ring
    have e6 : (if 2/5 < fat_frac dm n then (fat_frac dm n - 2/5) * 4 else 0) =
        4 * max 0 (fat_frac dm n - 2/5) := by
      split_ifs with hc
      · rw [max_eq_right (by linarith)]; ring
      · rw [max_eq_left (by linarith)]; ring
    rw [e1, e2, e3, e4, e5, e6]
  refine ⟨?_, ?_, key⟩
  · rcases le_or_lt (macro_total dm n) 0 with h | h
    · unfold macro_balance_penalty
      rw [if_pos h]
    · rw [key h]
      have m1 : (0:ℚ) ≤ max 0 (1/5 - protein_frac dm n) := le_max_left _ _
      have m2 : (0:ℚ) ≤ max 0 (protein_frac dm n - 9/20) := le_max_left _ _
      have m3 : (0:ℚ) ≤ max 0 (1/4 - carbs_frac dm n) := le_max_left _ _
      have m4 : (0:ℚ) ≤ max 0 (carbs_frac dm n - 3/5) := le_max_left _ _
      have m5 : (0:ℚ) ≤ max 0 (3/20 - fat_frac dm n) := le_max_left _ _
      have m6 : (0:ℚ) ≤ max 0 (fat_frac dm n - 2/5) := le_max_left _ _
      linarith
  · intro h
    unfold macro_balance_penalty
    rw [if_pos (le_of_eq h)]

/-- C5 witness: the zero-total case evaluates to a zero penalty and a
concrete mixed state has a nonnegative penalty. -/
theorem macro_balance_penalty_correct_witness :
    macro_balance_penalty ⟨0, 0, 0⟩ ⟨0, 0, 0, 0⟩ = 0 ∧
    0 ≤ macro_balance_penalty ⟨10, 20, 5⟩ ⟨400, 30, 20, 10⟩ :=
  ⟨(macro_balance_penalty_correct ⟨0, 0, 0⟩ ⟨0, 0, 0, 0⟩).2.1 (by decide),
   (macro_balance_penalty_correct ⟨10, 20, 5⟩ ⟨400, 30, 20, 10⟩).1⟩

/-- C9 counterexample: the parser returns 10 days for a ten-day query,
so the produced duration is not bounded by 7 (the repository's own test
test_parser_extracts_large_numbers asserts this value; the 7-day cap is
enforced downstream by the conflict resolver, not by the parser). -/
theorem parse_days_counterexample :
    parse_days "Create a 10 day meal plan" = 10 ∧
    ¬ parse_days "Create a 10 day meal plan" ≤ 7 := by
  constructor <;> decide

/-- C9 amended: for every input query the parser duration is at least 1
(the "week" branch yields 7, a numeric day match is clamped from below
to 1, and the default is 3); no upper bound is applied by the parser. -/
theorem parse_days_lower_bound (query : String) : 1 ≤ parse_days query := by
  unfold parse_days extract_duration
  split_ifs with h
  · omega
  · split
    · exact le_max_right _ _
    · omega

/-- The ranked list produced by _rank_candidates is sorted by the total
preorder rankLE (shared helper). -/
theorem rank_candidates_sorted (cs : List Recipe) (p : ParsedQuery) (ctx : ScoreContext)
    (dm : DayMacros) : List.Sorted rankLE (rank_candidates cs p ctx dm) := by
  cases cs with
  | nil => exact List.sorted_nil
  | cons a l => exact List.sorted_insertionSort rankLE _

/-- C1: the ranking step produces a list sorted by combined score
descending with ties broken by recipe id ascending, so the head beats
every later candidate (strictly higher score, or equal score and an id
that is less or equal), and the deterministic selection takes exactly
that head. -/
theorem rank_candidates_total_order (cs : List Recipe) (p : ParsedQuery)
    (ctx : ScoreContext) (dm : DayMacros) (s : ℚ) (r : Recipe) (rest : List (ℚ × Recipe))
    (h : rank_candidates cs p ctx dm = (s, r) :: rest) :
    List.Sorted rankLE ((s, r) :: rest) ∧
    (∀ q ∈ rest, q.1 < s ∨ (s = q.1 ∧ id_le r.id q.2.id)) ∧
    pick_best_recipe_disabled cs p ctx dm = (some r, none) := by
  have hs := rank_candidates_sorted cs p ctx dm
  rw [h] at hs
  refine ⟨hs, ?_, ?_⟩
  · intro q hq
    exact (List.sorted_cons.mp hs).1 q hq
  · unfold pick_best_recipe_disabled
    rw [h]

/-- C1 witness: two zero-scoring candidates with ids "a" and "b" rank
with "a" first regardless of input order, and "a" is selected. -/
theorem rank_candidates_total_order_witness :
    rank_candidates [sampleRecipeB, sampleRecipeA] pq0 ctx0 dm0 =
      [(0, sampleRecipeA), (0, sampleRecipeB)] ∧
    pick_best_recipe_disabled [sampleRecipeB, sampleRecipeA] pq0 ctx0 dm0 =
      (some sampleRecipeA, none) := by
  have hA : combined_score pq0 ctx0 dm0 sampleRecipeA = 0 := by
    unfold combined_score
    have h1 : score_recipe sampleRecipeA pq0 ctx0 = 0 := by decide
    have h2 : macro_balance_penalty dm0 sampleRecipeA.nutrition = 0 := by decide
    rw [h1, h2]; norm_num
  have hB : combined_score pq0 ctx0 dm0 sampleRecipeB = 0 := by
    unfold combined_score
    have h1 : score_recipe sampleRecipeB pq0 ctx0 = 0 := by decide
    have h2 : macro_balance_penalty dm0 sampleRecipeB.nutrition = 0 := by decide
    rw [h1, h2]; norm_num
  have h : rank_candidates [sampleRecipeB, sampleRecipeA] pq0 ctx0 dm0 =
      [(0, sampleRecipeA), (0, sampleRecipeB)] := by
    unfold rank_candidates
    simp only [List.map, hA, hB]
    decide
  exact ⟨h, (rank_candidates_total_order _ _ _ _ _ _ _ h).2.2⟩

/-- The id found by the membership check is a member (helper). -/
theorem jval_in_ids_mem {v : Option JVal} {ids : List String} {s : String}
    (h : jval_in_ids v ids = Except.ok (some s)) : s ∈ ids := by
  unfold jval_in_ids at h
  split at h
  · rename_i t
    split_ifs at h with hm
    · injection h with h1
      injection h1 with h2
      exact h2 ▸ hm
    · injection h with h1
      exact Option.noConfusion h1
  all_goals
    first
      | exact Except.noConfusion h
      | (injection h with h1; exact Option.noConfusion h1)

/-- C2 amended: for a single-slot rerank call reaching the remote path
(at least two candidates, a configured backend, no cache hit) over
candidates whose ids are non-empty strings: a failed or falsy remote
response and a response without a valid id yield the deterministic
fallback with absent reasons and no error; a response whose selected id
is offered yields that id with its extracted reasons; a response whose
selected id is not offered but whose backup id is yields the backup id
with the extracted reasons; but a response whose selected id — or, when
the selected id finds no match, whose backup id — is an unhashable JSON
value (a list or an object) makes the membership test raise an uncaught
TypeError out of rerank instead of falling back.  (Over an empty
candidate id the source's truthiness check discards the validated id,
hence the non-empty hypothesis.) -/
theorem rerank_validation (cands : List Recipe) (fb : String)
    (h2 : 2 ≤ cands.length) (hne : ∀ r ∈ cands, r.id ≠ "") :
    (rerank cands fb true none none = Except.ok (fb, none)) ∧
    (∀ v, jvalTruthy v = false →
      rerank cands fb true none (some v) = Except.ok (fb, none)) ∧
    (∀ v, choose_valid_id v (cands.map (·.id)) = Except.ok none →
      rerank cands fb true none (some v) = Except.ok (fb, none)) ∧
    (∀ fs s, jvalTruthy (JVal.jobj fs) = true →
      jval_in_ids (assocGet fs "selected_id") (cands.map (·.id)) = Except.ok (some s) →
      rerank cands fb true none (some (JVal.jobj fs)) =
        Except.ok (s, extract_reasons (JVal.jobj fs))) ∧
    (∀ fs b, jvalTruthy (JVal.jobj fs) = true →
      jval_in_ids (assocGet fs "selected_id") (cands.map (·.id)) = Except.ok none →
      jval_in_ids (assocGet fs "backup_id") (cands.map (·.id)) = Except.ok (some b) →
      rerank cands fb true none (some (JVal.jobj fs)) =
        Except.ok (b, extract_reasons (JVal.jobj fs))) ∧
    (∀ fs, jvalTruthy (JVal.jobj fs) = true →
      jval_in_ids (assocGet fs "selected_id") (cands.map (·.id)) = Except.error () →
      rerank cands fb true none (some (JVal.jobj fs)) = Except.error ()) ∧
    (∀ fs, jvalTruthy (JVal.jobj fs) = true →
      jval_in_ids (assocGet fs "selected_id") (cands.map (·.id)) = Except.ok none →
      jval_in_ids (assocGet fs "backup_id") (cands.map (·.id)) = Except.error () →
      rerank cands fb true none (some (JVal.jobj fs)) = Except.error ()) := by
  have hlen : ¬ cands.length < 2 := not_lt.mpr h2
  have hid : ∀ s, s ∈ cands.map (·.id) → s ≠ "" := by
    intro s hs
    rcases List.mem_map.mp hs with ⟨r, hr, hrs⟩
    exact hrs ▸ hne r hr
  refine ⟨?_, ?_, ?_, ?_, ?_, ?_, ?_⟩
  · simp [rerank, hlen]
  · intro v hv
    simp [rerank, hlen, hv]
  · intro v hv
    by_cases ht : jvalTruthy v
    · simp [rerank, hlen, ht, validated_choice, hv]
    · simp [rerank, hlen, ht]
  · intro fs s ht hsel
    have hcv : choose_valid_id (JVal.jobj fs) (cands.map (·.id)) = Except.ok (some s) := by
      simp only [choose_valid_id]
      rw [hsel]
    have hsne : s ≠ "" := hid s (jval_in_ids_mem hsel)
    simp [rerank, hlen, ht, validated_choice, hcv, hsne]
  · intro fs b ht hsel hbak
    have hcv : choose_valid_id (JVal.jobj fs) (cands.map (·.id)) = Except.ok (some b) := by
      simp only [choose_valid_id]
      rw [hsel, hbak]
    have hbne : b ≠ "" := hid b (jval_in_ids_mem hbak)
    simp [rerank, hlen, ht, validated_choice, hcv, hbne]
  · intro fs ht hsel
    have hcv : choose_valid_id (JVal.jobj fs) (cands.map (·.id)) = Except.error () := by
      simp only [choose_valid_id]
      rw [hsel]
    simp [rerank, hlen, ht, validated_choice, hcv]
  · intro fs ht hsel hbak
    have hcv : choose_valid_id (JVal.jobj fs) (cands.map (·.id)) = Except.error () := by
      simp only [choose_valid_id]
      rw [hsel, hbak]
    simp [rerank, hlen, ht, validated_choice, hcv]

/-- C2 amended witness: with candidates "a" and "b" and fallback "a", a
failed remote call yields the fallback with no error, and a response
selecting the unknown id "z" with backup "b" yields the backup with its
reasons. -/
theorem rerank_validation_witness :
    rerank [sampleRecipeA, sampleRecipeB] "a" true none none = Except.ok ("a", none) ∧
    rerank [sampleRecipeA, sampleRecipeB] "a" true none
        (some (JVal.jobj [("selected_id", JVal.jstr "z"), ("backup_id", JVal.jstr "b"),
          ("reasons", JVal.jarr [JVal.jstr "lighter dinner"])])) =
      Except.ok ("b", some ["lighter dinner"]) := by
  have h := rerank_validation [sampleRecipeA, sampleRecipeB] "a" (by decide) (by decide)
  refine ⟨h.1, ?_⟩
  have hb := h.2.2.2.2.1 [("selected_id", JVal.jstr "z"), ("backup_id", JVal.jstr "b"),
    ("reasons", JVal.jarr [JVal.jstr "lighter dinner"])] "b" (by decide) rfl rfl
  rw [hb]
  rfl

/-- C2 counterexample: a remote response whose selected id is a JSON
list is malformed, yet rerank does not return the deterministic winner
on it: the Python membership test "selected_id in candidate_ids" hashes
the probe, so the unhashable list raises an uncaught TypeError that
propagates to the caller, where the claim promises the deterministic
winner with no error. -/
theorem rerank_validation_counterexample :
    jvalTruthy (JVal.jobj [("selected_id", JVal.jarr [])]) = true ∧
    rerank [sampleRecipeA, sampleRecipeB] "a" true none
        (some (JVal.jobj [("selected_id", JVal.jarr [])])) = Except.error () :=
  ⟨by decide, rfl⟩

/-- C10 amended: a single-slot rerank call that hits the response cache
revalidates the cached payload against the current candidate ids,
whatever a fresh remote call would have produced: when the validation
completes with no valid id — the cached selected and backup ids are
hashable values not among the current ids — the deterministic fallback
is returned with absent reasons; but when the cached selected id (or,
when the selected id finds no match, the cached backup id) is an
unhashable JSON value, the revalidation raises an uncaught TypeError
instead. -/
theorem rerank_cached_revalidation (cands : List Recipe) (fb : String) (c : JVal)
    (llmRes : Option JVal) (h2 : 2 ≤ cands.length) (hc : jvalTruthy c = true) :
    (choose_valid_id c (cands.map (·.id)) = Except.ok none →
      rerank cands fb true (some c) llmRes = Except.ok (fb, none)) ∧
    (choose_valid_id c (cands.map (·.id)) = Except.error () →
      rerank cands fb true (some c) llmRes = Except.error ()) := by
  have hlen : ¬ cands.length < 2 := not_lt.mpr h2
  constructor
  · intro hnone
    simp [rerank, hlen, hc, validated_choice, hnone]
  · intro herr
    simp [rerank, hlen, hc, validated_choice, herr]

/-- C10 witness: a cached payload selecting only the unknown hashable
ids "x" and "y" yields the fallback "a" with absent reasons on a call
offering "a" and "b". -/
theorem rerank_cached_revalidation_witness :
    rerank [sampleRecipeA, sampleRecipeB] "a" true
        (some (JVal.jobj [("selected_id", JVal.jstr "x"), ("backup_id", JVal.jstr "y")]))
        none = Except.ok ("a", none) :=
  (rerank_cached_revalidation [sampleRecipeA, sampleRecipeB] "a" _ none
    (by decide) (by decide)).1 rfl

/-- C10 counterexample: a cached payload whose selected id is a JSON
list satisfies the claim's hypothesis — neither the cached selected id
nor the cached backup id is among the current call's candidate ids —
yet the cache-hit revalidation raises an uncaught TypeError out of
rerank instead of returning the deterministic fallback. -/
theorem rerank_cached_revalidation_counterexample :
    jvalTruthy (JVal.jobj [("selected_id", JVal.jarr [JVal.jstr "x"])]) = true ∧
    rerank [sampleRecipeA, sampleRecipeB] "a" true
        (some (JVal.jobj [("selected_id", JVal.jarr [JVal.jstr "x"])]))
        none = Except.error () :=
  ⟨by decide, rfl⟩

/-- C7: the reason cleaning applies no four-item cap — the five reason
strings of a remote payload all survive _extract_reasons (the cap
appears only as an instruction inside the prompt text) — and the
pydantic Meal model of app/models.py declares no selection_reasons
field, so the selection_reasons keyword the planner passes into the Meal
constructor is silently dropped: the constructed meal does not depend on
the reasons argument at all, and the finalized meal built from the
five-reason payload is exactly the reason-free meal. -/
theorem reasons_uncapped_and_dropped :
    extract_reasons fiveReasonsResult = some ["r1", "r2", "r3", "r4", "r5"] ∧
    ¬ ((extract_reasons fiveReasonsResult).getD []).length ≤ 4 ∧
    finalize_step [("day1:breakfast", fiveReasonsResult)] ∅ sampleEntryAB =
      Except.ok (some (mk_meal "breakfast" sampleRecipeA none, sampleRecipeA)) ∧
    (∀ (mType : String) (r : Recipe) (reasons : Option (List String)),
      mk_meal mType r reasons = mk_meal mType r none) := by
  refine ⟨by decide, by decide, rfl, fun mType r reasons => rfl⟩

/-- C6 counterexample: the previous-day set the planner carries in the
context is built by whitespace splitting, not by alphabetic runs — on
the ingredient "egg(2)" the two tokenizers disagree, and scoring the
candidate recipe with ingredient "egg" against the code's previous-day
set yields 0 while under the claim's alphabetic-run previous-day set it
would yield -2. -/
theorem diversity_tokenization_counterexample :
    planner_ingredient_tokens ["egg(2)"] ≠ scoring_ingredient_tokens ["egg(2)"] ∧
    prev_day_tokens [["egg(2)"]] ≠ spec_prev_day_tokens [["egg(2)"]] ∧
    score_recipe sampleEggRecipe pq0 ⟨prev_day_tokens [["egg(2)"]], ∅⟩ = 0 ∧
    score_recipe sampleEggRecipe pq0 ⟨spec_prev_day_tokens [["egg(2)"]], ∅⟩ = -2 := by
  refine ⟨by decide, by decide, ?_, ?_⟩
  · unfold score_recipe
    dsimp only
    rw [if_pos (show prev_day_tokens [["egg(2)"]] ≠ ∅ by decide),
      if_pos (show scoring_ingredient_tokens sampleEggRecipe.ingredients ≠ ∅ by decide),
      show (scoring_ingredient_tokens sampleEggRecipe.ingredients ∩
        prev_day_tokens [["egg(2)"]]).card = 0 by decide,
      show max 1 (scoring_ingredient_tokens sampleEggRecipe.ingredients).card = 1 by decide,
      if_neg (show ¬ ((∅ : Finset String) ≠ ∅ ∧ sampleEggRecipe.dish_types ≠ []) by simp),
      show score_pre_diversity sampleEggRecipe pq0 = 0 by decide]
    norm_num
  · unfold score_recipe
    dsimp only
    rw [if_pos (show spec_prev_day_tokens [["egg(2)"]] ≠ ∅ by decide),
      if_pos (show scoring_ingredient_tokens sampleEggRecipe.ingredients ≠ ∅ by decide),
      show (scoring_ingredient_tokens sampleEggRecipe.ingredients ∩
        spec_prev_day_tokens [["egg(2)"]]).card = 1 by decide,
      show max 1 (scoring_ingredient_tokens sampleEggRecipe.ingredients).card = 1 by decide,
      if_neg (show ¬ ((∅ : Finset String) ≠ ∅ ∧ sampleEggRecipe.dish_types ≠ []) by simp),
      show score_pre_diversity sampleEggRecipe pq0 = 0 by decide]
    norm_num

/-- C6 amended: the candidate's ingredient tokens are the alphabetic
runs of length at least three of the lowercased ingredients, and when
both the candidate token set and the previous-day set are non-empty the
scorer subtracts overlap-fraction times two, where the fraction is the
share of the candidate's tokens that appear in the previous-day set; the
previous-day set itself, however, is accumulated by the planner with its
whitespace-split tokenizer (length at least three of the lowercased
whitespace-separated pieces), not with the alphabetic-run tokenizer. -/
theorem diversity_tokenization (r : Recipe) (p : ParsedQuery)
    (prevIngs : List (List String)) (prevDish : Finset String)
    (hr : scoring_ingredient_tokens r.ingredients ≠ ∅)
    (hctx : prev_day_tokens prevIngs ≠ ∅) :
    score_recipe r p ⟨prev_day_tokens prevIngs, prevDish⟩ =
      score_recipe r p ⟨∅, prevDish⟩ -
        ((scoring_ingredient_tokens r.ingredients ∩ prev_day_tokens prevIngs).card : ℚ) /
          ((scoring_ingredient_tokens r.ingredients).card : ℚ) * 2 := by
  have hcard : (1 : ℕ) ≤ (scoring_ingredient_tokens r.ingredients).card :=
    Finset.card_pos.mpr (Finset.nonempty_iff_ne_empty.mpr hr)
  unfold score_recipe
  dsimp only
  rw [if_pos hctx, if_pos hr,
    Nat.max_eq_right hcard,
    if_neg (show ¬ ((∅ : Finset String) ≠ ∅) by simp)]
  split_ifs with hd
  · ring
  · ring

/-- C6 amended witness: a candidate with the single ingredient "egg"
scored against the previous-day ingredient list ["egg salad"] receives
the full overlap penalty computed from the two tokenizers of the code. -/
theorem diversity_tokenization_witness :
    score_recipe sampleEggRecipe pq0 ⟨prev_day_tokens [["egg salad"]], ∅⟩ =
      score_recipe sampleEggRecipe pq0 ⟨∅, ∅⟩ -
        ((scoring_ingredient_tokens sampleEggRecipe.ingredients ∩
            prev_day_tokens [["egg salad"]]).card : ℚ) /
          ((scoring_ingredient_tokens sampleEggRecipe.ingredients).card : ℚ) * 2 :=
  diversity_tokenization sampleEggRecipe pq0 [["egg salad"]] ∅ (by decide) (by decide)

/-- A ranked pair comes from the candidate list (helper). -/
theorem mem_rank_candidates {p : ℚ × Recipe} {cs : List Recipe} {q : ParsedQuery}
    {ctx : ScoreContext} {dm : DayMacros} (h : p ∈ rank_candidates cs q ctx dm) :
    p.2 ∈ cs := by
  cases cs with
  | nil => exact absurd h (by simp [rank_candidates])
  | cons a l =>
    have h' : p ∈ List.insertionSort rankLE
        ((a :: l).map fun r => (combined_score q ctx dm r, r)) := h
    have hp := (List.perm_insertionSort rankLE _).mem_iff.mp h'
    rcases List.mem_map.mp hp with ⟨r, hr, hpr⟩
    rw [← hpr]
    exact hr

/-- The ranking is empty exactly for an empty candidate list (helper). -/
theorem rank_candidates_eq_nil_iff (cs : List Recipe) (q : ParsedQuery)
    (ctx : ScoreContext) (dm : DayMacros) :
    rank_candidates cs q ctx dm = [] ↔ cs = [] := by
  cases cs with
  | nil => simp [rank_candidates]
  | cons a l =>
    constructor
    · intro h
      exfalso
      have h' : List.insertionSort rankLE
          ((a :: l).map fun r => (combined_score q ctx dm r, r)) = [] := h
      have hlen := congrArg List.length h'
      rw [List.length_insertionSort] at hlen
      simp at hlen
    · intro h
      exact absurd h (by simp)

/-- Unfolding of the slot core on a successful ranked pick (helper). -/
theorem slot_core_pick (dc : DayCtx) (acc : DayAcc) (mType : String)
    (s : ℚ) (r : Recipe) (rest : List (ℚ × Recipe)) (fb : Bool)
    (h : slot_ranked dc { acc with warnings := acc.warnings ++ (time_filtered dc mType).2 }
        (time_filtered dc mType).1 = ((s, r) :: rest, fb)) :
    slot_core dc acc mType =
      (acc_commit
        (if fb then
          { acc with
            warnings := acc.warnings ++ (time_filtered dc mType).2,
            defaults := acc.defaults ++ [reused_pool_default dc.dayNum mType] }
         else { acc with warnings := acc.warnings ++ (time_filtered dc mType).2 }) r,
       some (r, (s, r) :: rest)) := by
  simp only [slot_core]
  rw [h]

/-- Unfolding of the slot core on an empty final ranking (helper). -/
theorem slot_core_empty (dc : DayCtx) (acc : DayAcc) (mType : String) (fb : Bool)
    (h : slot_ranked dc { acc with warnings := acc.warnings ++ (time_filtered dc mType).2 }
        (time_filtered dc mType).1 = ([], fb)) :
    slot_core dc acc mType =
      ({ acc with warnings := (acc.warnings ++ (time_filtered dc mType).2) ++
          [no_candidates_warning dc.dayNum mType] }, none) := by
  simp only [slot_core]
  rw [h]

/-- Unfolding of the non-batch slot on a pick (helper). -/
theorem slot_single_of_core_pick {dc : DayCtx} {acc : DayAcc} {mType : String}
    {acc2 : DayAcc} {r : Recipe} {rk : List (ℚ × Recipe)}
    (h : slot_core dc acc mType = (acc2, some (r, rk))) :
    slot_single dc acc mType = { acc2 with meals := acc2.meals ++ [mk_meal mType r none] } := by
  unfold slot_single
  rw [h]

/-- Unfolding of the non-batch slot on an empty slot (helper). -/
theorem slot_single_of_core_none {dc : DayCtx} {acc : DayAcc} {mType : String}
    {acc2 : DayAcc} (h : slot_core dc acc mType = (acc2, none)) :
    slot_single dc acc mType = acc2 := by
  unfold slot_single
  rw [h]

/-- Slot ranking when the primary pool ranks non-empty (helper). -/
theorem slot_ranked_of_avail (dc : DayCtx) (acc : DayAcc) (cs : List Recipe)
    (s : ℚ) (r : Recipe) (rest : List (ℚ × Recipe))
    (h : rank_candidates (cs.filter fun x => decide (x.id ∉ acc.usedRecipes)) dc.parsed
        ⟨dc.prevDayTokens, dc.prevDayDishTypes⟩ acc.dayMacros = (s, r) :: rest) :
    slot_ranked dc acc cs = ((s, r) :: rest, false) := by
  simp only [slot_ranked]
  rw [h]

/-- Slot ranking when the primary pool is exhausted: the fallback pool
is ranked and the fallback flag records whether it yielded anything
(helper). -/
theorem slot_ranked_of_fallback (dc : DayCtx) (acc : DayAcc) (cs : List Recipe)
    (ha : (cs.filter fun x => decide (x.id ∉ acc.usedRecipes)) = []) :
    slot_ranked dc acc cs =
      (rank_candidates (fallback_pool cs acc.usedToday dc.recentIds) dc.parsed
        ⟨dc.prevDayTokens, dc.prevDayDishTypes⟩ acc.dayMacros,
       !(rank_candidates (fallback_pool cs acc.usedToday dc.recentIds) dc.parsed
        ⟨dc.prevDayTokens, dc.prevDayDishTypes⟩ acc.dayMacros).isEmpty) := by
  simp only [slot_ranked]
  rw [ha]
  rfl

/-- C4 amended: the fallback tiers of a slot.  The fallback pool tries
three progressively looser tiers — candidates excluding today's and the
last-2-days' used ids, then candidates excluding only today's used ids,
then the full filtered candidate set — and is non-empty whenever the
candidates are.  A slot whose primary pool ranks non-empty commits its
head with no applied default; a slot whose primary pool is empty commits
the head of the ranked fallback pool and records the (tier-agnostic)
reuse message as an applied default; a slot with no candidates at all
records a warning, stays empty, and the day loop continues with the
remaining slots. -/
theorem fallback_tiers (dc : DayCtx) (acc : DayAcc) (mType : String) :
    (∀ (cs : List Recipe) (uT rI : Finset String),
      (cs.filter (fun r => decide (r.id ∉ uT ∧ r.id ∉ rI)) ≠ [] →
        fallback_pool cs uT rI = cs.filter (fun r => decide (r.id ∉ uT ∧ r.id ∉ rI))) ∧
      (cs.filter (fun r => decide (r.id ∉ uT ∧ r.id ∉ rI)) = [] →
        cs.filter (fun r => decide (r.id ∉ uT)) ≠ [] →
        fallback_pool cs uT rI = cs.filter (fun r => decide (r.id ∉ uT))) ∧
      (cs.filter (fun r => decide (r.id ∉ uT ∧ r.id ∉ rI)) = [] →
        cs.filter (fun r => decide (r.id ∉ uT)) = [] →
        fallback_pool cs uT rI = cs) ∧
      (cs ≠ [] → fallback_pool cs uT rI ≠ [])) ∧
    (∀ (s : ℚ) (r : Recipe) (rest : List (ℚ × Recipe)),
      rank_candidates ((time_filtered dc mType).1.filter
          (fun x => decide (x.id ∉ acc.usedRecipes))) dc.parsed
          ⟨dc.prevDayTokens, dc.prevDayDishTypes⟩ acc.dayMacros = (s, r) :: rest →
      slot_single dc acc mType =
        { acc_commit { acc with warnings := acc.warnings ++ (time_filtered dc mType).2 } r with
          meals := acc.meals ++ [mk_meal mType r none] }) ∧
    (∀ (s : ℚ) (r : Recipe) (rest : List (ℚ × Recipe)),
      (time_filtered dc mType).1.filter (fun x => decide (x.id ∉ acc.usedRecipes)) = [] →
      rank_candidates (fallback_pool (time_filtered dc mType).1 acc.usedToday dc.recentIds)
          dc.parsed ⟨dc.prevDayTokens, dc.prevDayDishTypes⟩ acc.dayMacros = (s, r) :: rest →
      slot_single dc acc mType =
        { acc_commit { acc with
            warnings := acc.warnings ++ (time_filtered dc mType).2,
            defaults := acc.defaults ++ [reused_pool_default dc.dayNum mType] } r with
          meals := acc.meals ++ [mk_meal mType r none] }) ∧
    ((time_filtered dc mType).1 = [] →
      slot_single dc acc mType =
        { acc with warnings := (acc.warnings ++ (time_filtered dc mType).2) ++
            [no_candidates_warning dc.dayNum mType] }) ∧
    ((time_filtered dc mType).1 ≠ [] →
      (slot_single dc acc mType).meals.length = acc.meals.length + 1) ∧
    (∀ ms, run_day_single dc (mType :: ms) acc = run_day_single dc ms (slot_single dc acc mType)) := by
  have tiers : ∀ (cs : List Recipe) (uT rI : Finset String),
      (cs.filter (fun r => decide (r.id ∉ uT ∧ r.id ∉ rI)) ≠ [] →
        fallback_pool cs uT rI = cs.filter (fun r => decide (r.id ∉ uT ∧ r.id ∉ rI))) ∧
      (cs.filter (fun r => decide (r.id ∉ uT ∧ r.id ∉ rI)) = [] →
        cs.filter (fun r => decide (r.id ∉ uT)) ≠ [] →
        fallback_pool cs uT rI = cs.filter (fun r => decide (r.id ∉ uT))) ∧
      (cs.filter (fun r => decide (r.id ∉ uT ∧ r.id ∉ rI)) = [] →
        cs.filter (fun r => decide (r.id ∉ uT)) = [] →
        fallback_pool cs uT rI = cs) ∧
      (cs ≠ [] → fallback_pool cs uT rI ≠ []) := by
    intro cs uT rI
    refine ⟨?_, ?_, ?_, ?_⟩
    · intro h1
      simp only [fallback_pool]
      rw [if_pos h1]
    · intro h1 h2
      simp only [fallback_pool]
      rw [if_neg (not_not_intro h1), if_pos h2]
    · intro h1 h2
      simp only [fallback_pool]
      rw [if_neg (not_not_intro h1), if_neg (not_not_intro h2)]
    · intro hcs
      simp only [fallback_pool]
      split_ifs with h1 h2
      · exact h1
      · exact h2
      · exact hcs
  have caseA : ∀ (s : ℚ) (r : Recipe) (rest : List (ℚ × Recipe)),
      rank_candidates ((time_filtered dc mType).1.filter
          (fun x => decide (x.id ∉ acc.usedRecipes))) dc.parsed
          ⟨dc.prevDayTokens, dc.prevDayDishTypes⟩ acc.dayMacros = (s, r) :: rest →
      slot_single dc acc mType =
        { acc_commit { acc with warnings := acc.warnings ++ (time_filtered dc mType).2 } r with
          meals := acc.meals ++ [mk_meal mType r none] } := by
    intro s r rest h
    have hsr : slot_ranked dc { acc with warnings := acc.warnings ++ (time_filtered dc mType).2 }
        (time_filtered dc mType).1 = ((s, r) :: rest, false) :=
      slot_ranked_of_avail dc _ _ s r rest h
    rw [slot_single_of_core_pick (slot_core_pick dc acc mType s r rest false hsr)]
    rfl
  have caseB : ∀ (s : ℚ) (r : Recipe) (rest : List (ℚ × Recipe)),
      (time_filtered dc mType).1.filter (fun x => decide (x.id ∉ acc.usedRecipes)) = [] →
      rank_candidates (fallback_pool (time_filtered dc mType).1 acc.usedToday dc.recentIds)
          dc.parsed ⟨dc.prevDayTokens, dc.prevDayDishTypes⟩ acc.dayMacros = (s, r) :: rest →
      slot_single dc acc mType =
        { acc_commit { acc with
            warnings := acc.warnings ++ (time_filtered dc mType).2,
            defaults := acc.defaults ++ [reused_pool_default dc.dayNum mType] } r with
          meals := acc.meals ++ [mk_meal mType r none] } := by
    intro s r rest ha h
    have hsr : slot_ranked dc { acc with warnings := acc.warnings ++ (time_filtered dc mType).2 }
        (time_filtered dc mType).1 = ((s, r) :: rest, true) := by
      rw [slot_ranked_of_fallback dc
        { acc with warnings := acc.warnings ++ (time_filtered dc mType).2 }
        (time_filtered dc mType).1 ha]
      dsimp only
      rw [h]
      rfl
    rw [slot_single_of_core_pick (slot_core_pick dc acc mType s r rest true hsr)]
    rfl
  have caseC : (time_filtered dc mType).1 = [] →
      slot_single dc acc mType =
        { acc with warnings := (acc.warnings ++ (time_filtered dc mType).2) ++
            [no_candidates_warning dc.dayNum mType] } := by
    intro htf
    have ha : (time_filtered dc mType).1.filter
        (fun x => decide (x.id ∉ acc.usedRecipes)) = [] := by
      rw [htf]; rfl
    have hpool : fallback_pool (time_filtered dc mType).1 acc.usedToday dc.recentIds = [] := by
      rw [htf]; rfl
    have hsr : slot_ranked dc { acc with warnings := acc.warnings ++ (time_filtered dc mType).2 }
        (time_filtered dc mType).1 = ([], false) := by
      rw [slot_ranked_of_fallback dc
        { acc with warnings := acc.warnings ++ (time_filtered dc mType).2 }
        (time_filtered dc mType).1 ha]
      dsimp only
      rw [hpool]
      rfl
    rw [slot_single_of_core_none (slot_core_empty dc acc mType false hsr)]
  refine ⟨tiers, caseA, caseB, caseC, ?_, fun ms => rfl⟩
  · intro htf
    rcases hava : (time_filtered dc mType).1.filter
        (fun x => decide (x.id ∉ acc.usedRecipes)) with _ | _
    · have hpne : fallback_pool (time_filtered dc mType).1 acc.usedToday dc.recentIds ≠ [] :=
        (tiers _ _ _).2.2.2 htf
      rcases hrk : rank_candidates (fallback_pool (time_filtered dc mType).1 acc.usedToday
          dc.recentIds) dc.parsed ⟨dc.prevDayTokens, dc.prevDayDishTypes⟩ acc.dayMacros with
        _ | ⟨⟨s, r⟩, rest⟩
      · exact absurd ((rank_candidates_eq_nil_iff _ _ _ _).mp hrk) hpne
      · rw [caseB s r rest hava hrk]
        simp
    · rename_i p ps
      rcases hrk : rank_candidates ((time_filtered dc mType).1.filter
          (fun x => decide (x.id ∉ acc.usedRecipes))) dc.parsed
          ⟨dc.prevDayTokens, dc.prevDayDishTypes⟩ acc.dayMacros with _ | ⟨⟨s, r⟩, rest⟩
      · have := (rank_candidates_eq_nil_iff _ _ _ _).mp hrk
        rw [hava] at this
        exact absurd this (by simp)
      · rw [caseA s r rest hrk]
        simp

/-- C4 amended witness: with every candidate already used in the plan,
"a" used today and "b" used in the last two days, the fallback pool is
non-empty, the slot still produces a meal, and the day loop continues. -/
theorem fallback_tiers_witness :
    fallback_pool [sampleRecipeA, sampleRecipeB] {"a"} {"b"} ≠ [] ∧
    (slot_single dcSample accSample "breakfast").meals.length =
      accSample.meals.length + 1 ∧
    run_day_single dcSample ["breakfast"] accSample =
      run_day_single dcSample [] (slot_single dcSample accSample "breakfast") := by
  have h := fallback_tiers dcSample accSample "breakfast"
  exact ⟨(h.1 [sampleRecipeA, sampleRecipeB] {"a"} {"b"}).2.2.2 (by decide),
    h.2.2.2.2.1 (by decide), h.2.2.2.2.2 []⟩

/-- C4 counterexample: the code has a middle fallback tier the claim
omits.  With candidates "a" and "b" both used in the plan, "a" used
today and "b" used within the last two days, the first tier is empty and
the code's next tier (exclude only today's ids) selects recipe "b",
whereas the claim's description (first tier, then directly the full
candidate set) would rank both candidates and select recipe "a" by the
score tie-break. -/
theorem fallback_tiers_counterexample :
    fallback_pool [sampleRecipeA, sampleRecipeB] {"a"} {"b"} = [sampleRecipeB] ∧
    spec_fallback_pool [sampleRecipeA, sampleRecipeB] {"a"} {"b"} =
      [sampleRecipeA, sampleRecipeB] ∧
    (rank_candidates (fallback_pool [sampleRecipeA, sampleRecipeB] {"a"} {"b"})
        pq0 ctx0 dm0).head?.map (fun p => p.2.title) = some "Recipe B" ∧
    (rank_candidates (spec_fallback_pool [sampleRecipeA, sampleRecipeB] {"a"} {"b"})
        pq0 ctx0 dm0).head?.map (fun p => p.2.title) = some "Recipe A" ∧
    ("Recipe B" : String) ≠ "Recipe A" := by
  have hpool : fallback_pool [sampleRecipeA, sampleRecipeB] {"a"} {"b"} =
      [sampleRecipeB] := by decide
  have hspec : spec_fallback_pool [sampleRecipeA, sampleRecipeB] {"a"} {"b"} =
      [sampleRecipeA, sampleRecipeB] := by decide
  have hA : combined_score pq0 ctx0 dm0 sampleRecipeA = 0 := by
    unfold combined_score
    have h1 : score_recipe sampleRecipeA pq0 ctx0 = 0 := by decide
    have h2 : macro_balance_penalty dm0 sampleRecipeA.nutrition = 0 := by decide
    rw [h1, h2]; norm_num
  have hB : combined_score pq0 ctx0 dm0 sampleRecipeB = 0 := by
    unfold combined_score
    have h1 : score_recipe sampleRecipeB pq0 ctx0 = 0 := by decide
    have h2 : macro_balance_penalty dm0 sampleRecipeB.nutrition = 0 := by decide
    rw [h1, h2]; norm_num
  refine ⟨hpool, hspec, ?_, ?_, by decide⟩
  · rw [hpool]
    rfl
  · rw [hspec]
    unfold rank_candidates
    simp only [List.map, hA, hB]
    decide

/-- Members of the fallback pool are candidates (helper). -/
theorem fallback_pool_subset {cs : List Recipe} {uT rI : Finset String} {r : Recipe}
    (h : r ∈ fallback_pool cs uT rI) : r ∈ cs := by
  simp only [fallback_pool] at h
  split_ifs at h with h1 h2
  · exact (List.mem_filter.mp h).1
  · exact (List.mem_filter.mp h).1
  · exact h

/-- Every slot ranking is homogeneous with respect to the global used
set: either it came from the primary pool and no ranked id is used, or
it came from a fallback pool of an exhausted slot and every ranked id is
used (helper). -/
theorem slot_ranked_cases (dc : DayCtx) (acc : DayAcc) (cs : List Recipe) :
    (∀ p ∈ (slot_ranked dc acc cs).1, p.2.id ∉ acc.usedRecipes) ∨
    (∀ p ∈ (slot_ranked dc acc cs).1, p.2.id ∈ acc.usedRecipes) := by
  rcases hrk : rank_candidates (cs.filter fun x => decide (x.id ∉ acc.usedRecipes)) dc.parsed
      ⟨dc.prevDayTokens, dc.prevDayDishTypes⟩ acc.dayMacros with _ | ⟨⟨s, r⟩, rest⟩
  · right
    have hava : cs.filter (fun x => decide (x.id ∉ acc.usedRecipes)) = [] :=
      (rank_candidates_eq_nil_iff _ _ _ _).mp hrk
    have hall : ∀ x ∈ cs, x.id ∈ acc.usedRecipes := by
      intro x hx
      by_contra hneg
      have hxf : x ∈ cs.filter (fun x => decide (x.id ∉ acc.usedRecipes)) :=
        List.mem_filter.mpr ⟨hx, by simpa using hneg⟩
      rw [hava] at hxf
      exact absurd hxf (by simp)
    intro p hp
    rw [slot_ranked_of_fallback dc acc cs hava] at hp
    simp only at hp
    exact hall p.2 (fallback_pool_subset (mem_rank_candidates hp))
  · left
    intro p hp
    rw [slot_ranked_of_avail dc acc cs s r rest hrk] at hp
    simp only at hp
    have hpr : p ∈ rank_candidates (cs.filter fun x => decide (x.id ∉ acc.usedRecipes))
        dc.parsed ⟨dc.prevDayTokens, dc.prevDayDishTypes⟩ acc.dayMacros := by
      rw [hrk]; exact hp
    have hmem := mem_rank_candidates hpr
    simpa using (List.mem_filter.mp hmem).2

/-- Normal form of a finalize step over an empty batch-result mapping:
the validation yields nothing, so the step replays the stored ranking —
the first candidate not yet used, else the ranked head (helper). -/
theorem finalize_step_empty_eq (used : Finset String) (e : BatchEntry) :
    finalize_step [] used e =
      Except.ok (((match e.ranked.find? (fun p : ℚ × Recipe => decide (p.2.id ∉ used)) with
       | some p => some (p.2, (none : Option (List String)))
       | none =>
         match e.ranked with
         | p :: _ => some (p.2, (none : Option (List String)))
         | [] => none) : Option (Recipe × Option (List String))).map
        (fun pr => (mk_meal e.meal_type pr.1 pr.2, pr.1))) := rfl

/-- On a homogeneous ranking the finalize step over an empty result
mapping commits exactly the ranked head with absent reasons, with no
membership test and hence no possible TypeError (helper). -/
theorem finalize_step_nil (used : Finset String) (e : BatchEntry)
    (s : ℚ) (r : Recipe) (rest : List (ℚ × Recipe)) (he : e.ranked = (s, r) :: rest)
    (hcase : (∀ p ∈ e.ranked, p.2.id ∉ used) ∨ (∀ p ∈ e.ranked, p.2.id ∈ used)) :
    finalize_step [] used e = Except.ok (some (mk_meal e.meal_type r none, r)) := by
  rw [finalize_step_empty_eq]
  rcases hcase with hc | hc
  · have hfind : e.ranked.find? (fun p : ℚ × Recipe => decide (p.2.id ∉ used)) = some (s, r) := by
      rw [he]
      exact List.find?_cons_of_pos _ (by simpa using hc (s, r) (he ▸ List.mem_cons_self _ _))
    rw [hfind]
    rfl
  · have hfind : e.ranked.find? (fun p : ℚ × Recipe => decide (p.2.id ∉ used)) = none := by
      rw [List.find?_eq_none]
      intro p hp
      simpa using hc p hp
    rw [hfind, he]
    rfl

/-- Unfolding of the finalize loop on a committed step (helper). -/
theorem finalize_go_cons_some {br : List (String × JVal)} {used : Finset String}
    {e : BatchEntry} {meal : Meal} {r : Recipe} {es : List BatchEntry} {out : FinalizeOut}
    (hstep : finalize_step br used e = Except.ok (some (meal, r))) :
    finalize_go br (e :: es) used out =
      finalize_go br es (insert r.id used) (out_snoc out meal r) := by
  simp only [finalize_go]
  rw [hstep]

/-- Unfolding of the batch slot on a pick (helper). -/
theorem slot_batch_of_core_pick {dc : DayCtx} {acc : DayAcc} {m : String} {acc2 : DayAcc}
    {r : Recipe} {rk : List (ℚ × Recipe)} (topK : Nat)
    (h : slot_core dc acc m = (acc2, some (r, rk))) :
    slot_batch dc topK acc m =
      (acc2, some
        { meal_slot := meal_slot_id dc.dayNum m,
          meal_type := m,
          candidates := (rk.take (min topK rk.length)).map (·.2),
          scores_by_id := (rk.take (min topK rk.length)).map (fun p => (p.2.id, p.1)),
          fallback_id := r.id,
          ranked := rk }) := by
  unfold slot_batch
  rw [h]

/-- Unfolding of the batch slot on an empty slot (helper). -/
theorem slot_batch_of_core_none {dc : DayCtx} {acc : DayAcc} {m : String} {acc2 : DayAcc}
    (topK : Nat) (h : slot_core dc acc m = (acc2, none)) :
    slot_batch dc topK acc m = (acc2, none) := by
  unfold slot_batch
  rw [h]

/-- Unfolding of the batch day loop on a collected entry (helper). -/
theorem run_day_batch_cons_some {dc : DayCtx} {topK : Nat} {acc acc1 : DayAcc} {m : String}
    {e : BatchEntry} (h : slot_batch dc topK acc m = (acc1, some e)) (ms : List String) :
    run_day_batch dc topK (m :: ms) acc =
      ((run_day_batch dc topK ms acc1).1, e :: (run_day_batch dc topK ms acc1).2) := by
  simp only [run_day_batch]
  rw [h]

/-- Unfolding of the batch day loop on an empty slot (helper). -/
theorem run_day_batch_cons_none {dc : DayCtx} {topK : Nat} {acc acc1 : DayAcc} {m : String}
    (h : slot_batch dc topK acc m = (acc1, none)) (ms : List String) :
    run_day_batch dc topK (m :: ms) acc = run_day_batch dc topK ms acc1 := by
  simp only [run_day_batch]
  rw [h]

/-- The slot core never reads the accumulated meal list: running it from
a state with a replaced meal list only replaces the meal list of the
resulting state (helper). -/
theorem slot_core_meals (dc : DayCtx) (acc : DayAcc) (mB : List Meal) (m : String) :
    slot_core dc { acc with meals := mB } m =
      ({ (slot_core dc acc m).1 with meals := mB }, (slot_core dc acc m).2) := by
  rcases h : slot_ranked dc { acc with warnings := acc.warnings ++ (time_filtered dc m).2 }
      (time_filtered dc m).1 with ⟨ranked, fb⟩
  cases ranked with
  | nil =>
    rw [slot_core_empty dc acc m fb h,
      slot_core_empty dc { acc with meals := mB } m fb (by exact h)]
  | cons hd rest =>
    rcases hd with ⟨s, r⟩
    rw [slot_core_pick dc acc m s r rest fb h,
      slot_core_pick dc { acc with meals := mB } m s r rest fb (by exact h)]
    cases fb <;> rfl

/-- Meal-list irrelevance lifted to the whole batch day pass: the
collected entries are unchanged and only the meal list of the final
state is replaced (helper). -/
theorem run_day_batch_meals (dc : DayCtx) (topK : Nat) :
    ∀ (mts : List String) (acc : DayAcc) (mB : List Meal),
      run_day_batch dc topK mts { acc with meals := mB } =
        ({ (run_day_batch dc topK mts acc).1 with meals := mB },
         (run_day_batch dc topK mts acc).2)
  | [], acc, mB => by
    simp [run_day_batch]
  | m :: ms, acc, mB => by
    rcases hc : slot_core dc acc m with ⟨acc2, opt⟩
    have hcB : slot_core dc { acc with meals := mB } m = ({ acc2 with meals := mB }, opt) := by
      rw [slot_core_meals, hc]
    rcases opt with _ | ⟨r, rk⟩
    · rw [run_day_batch_cons_none (slot_batch_of_core_none topK hcB) ms,
        run_day_batch_cons_none (slot_batch_of_core_none topK hc) ms]
      exact run_day_batch_meals dc topK ms acc2 mB
    · rw [run_day_batch_cons_some (slot_batch_of_core_pick topK hcB) ms,
        run_day_batch_cons_some (slot_batch_of_core_pick topK hc) ms,
        run_day_batch_meals dc topK ms acc2 mB]

/-- Master simulation between the two execution modes: the batch day
pass threads exactly the state of the non-batch pass (up to the meal
list, which the batch pass does not build), and finalizing the collected
entries over an empty batch-result mapping from the used-set at the
start replays exactly the meals, today-set, tokens and dish types of the
non-batch pass (helper). -/
theorem run_day_sim (dc : DayCtx) (topK : Nat) :
    ∀ (mts : List String) (acc : DayAcc),
      (run_day_batch dc topK mts acc).1 =
        { run_day_single dc mts acc with meals := acc.meals } ∧
      finalize_go [] (run_day_batch dc topK mts acc).2 acc.usedRecipes
          ⟨acc.meals, acc.usedToday, acc.dayTokens, acc.dayDishTypes⟩ =
        Except.ok
          ⟨(run_day_single dc mts acc).meals, (run_day_single dc mts acc).usedToday,
           (run_day_single dc mts acc).dayTokens, (run_day_single dc mts acc).dayDishTypes⟩
  | [], acc => by
    constructor
    · rfl
    · rfl
  | m :: ms, acc => by
    rcases hsr : slot_ranked dc { acc with warnings := acc.warnings ++ (time_filtered dc m).2 }
        (time_filtered dc m).1 with ⟨ranked, fb⟩
    cases ranked with
    | nil =>
      have hcore := slot_core_empty dc acc m fb hsr
      have hsingle : run_day_single dc (m :: ms) acc =
          run_day_single dc ms { acc with warnings := (acc.warnings ++ (time_filtered dc m).2)
            ++ [no_candidates_warning dc.dayNum m] } := by
        show run_day_single dc ms (slot_single dc acc m) = _
        rw [slot_single_of_core_none hcore]
      have hbatch := run_day_batch_cons_none (slot_batch_of_core_none topK hcore) ms
      rw [hbatch, hsingle]
      have IH := run_day_sim dc topK ms { acc with warnings :=
        (acc.warnings ++ (time_filtered dc m).2) ++ [no_candidates_warning dc.dayNum m] }
      exact ⟨IH.1, IH.2⟩
    | cons hd rest =>
      rcases hd with ⟨s, r⟩
      have hcase : (∀ p ∈ ((s, r) :: rest : List (ℚ × Recipe)), p.2.id ∉ acc.usedRecipes) ∨
          (∀ p ∈ ((s, r) :: rest : List (ℚ × Recipe)), p.2.id ∈ acc.usedRecipes) := by
        have hc := slot_ranked_cases dc
          { acc with warnings := acc.warnings ++ (time_filtered dc m).2 } (time_filtered dc m).1
        rw [hsr] at hc
        exact hc
      have step : ∀ accD : DayAcc,
          accD.usedRecipes = acc.usedRecipes → accD.usedToday = acc.usedToday →
          accD.dayTokens = acc.dayTokens → accD.dayDishTypes = acc.dayDishTypes →
          accD.meals = acc.meals →
          slot_core dc acc m = (acc_commit accD r, some (r, (s, r) :: rest)) →
          (run_day_batch dc topK (m :: ms) acc).1 =
            { run_day_single dc (m :: ms) acc with meals := acc.meals } ∧
          finalize_go [] (run_day_batch dc topK (m :: ms) acc).2 acc.usedRecipes
              ⟨acc.meals, acc.usedToday, acc.dayTokens, acc.dayDishTypes⟩ =
            Except.ok
              ⟨(run_day_single dc (m :: ms) acc).meals,
               (run_day_single dc (m :: ms) acc).usedToday,
               (run_day_single dc (m :: ms) acc).dayTokens,
               (run_day_single dc (m :: ms) acc).dayDishTypes⟩ := by
        intro accD hDused hDtoday hDtok hDdish hDmeals hcore
        have hsingle : run_day_single dc (m :: ms) acc =
            run_day_single dc ms
              { acc_commit accD r with
                meals := (acc_commit accD r).meals ++ [mk_meal m r none] } := by
          show run_day_single dc ms (slot_single dc acc m) = _
          rw [slot_single_of_core_pick hcore]
        have hbatch := run_day_batch_cons_some (slot_batch_of_core_pick topK hcore) ms
        set SS : DayAcc :=
          { acc_commit accD r with
            meals := (acc_commit accD r).meals ++ [mk_meal m r none] } with hSS
        have IH := run_day_sim dc topK ms SS
        have hA2 : ({ SS with meals := acc.meals } : DayAcc) = acc_commit accD r := by
          rw [hSS, ← hDmeals]
          rfl
        have hshift := run_day_batch_meals dc topK ms SS acc.meals
        rw [hA2] at hshift
        have hstep : finalize_step [] acc.usedRecipes
            { meal_slot := meal_slot_id dc.dayNum m,
              meal_type := m,
              candidates := (((s, r) :: rest).take (min topK ((s, r) :: rest).length)).map (·.2),
              scores_by_id := (((s, r) :: rest).take (min topK ((s, r) :: rest).length)).map
                (fun p => (p.2.id, p.1)),
              fallback_id := r.id,
              ranked := (s, r) :: rest } = Except.ok (some (mk_meal m r none, r)) :=
          finalize_step_nil acc.usedRecipes _ s r rest rfl hcase
        rw [hbatch, hsingle]
        constructor
        · rw [hshift, IH.1]
        · rw [hshift, finalize_go_cons_some hstep, ← hDused, ← hDtoday, ← hDtok, ← hDdish,
            ← hDmeals]
          exact IH.2
      cases fb with
      | false =>
        exact step { acc with warnings := acc.warnings ++ (time_filtered dc m).2 }
          rfl rfl rfl rfl rfl (slot_core_pick dc acc m s r rest false hsr)
      | true =>
        exact step
          { acc with
            warnings := acc.warnings ++ (time_filtered dc m).2,
            defaults := acc.defaults ++ [reused_pool_default dc.dayNum m] }
          rfl rfl rfl rfl rfl (slot_core_pick dc acc m s r rest true hsr)

/-- C3 amended: batched-rerank failure equivalence.  When the batched
remote call fails (the caught LLM or parse failure), returns a falsy
body, or returns an object without a usable selections list — that is,
whenever the selection extraction completes without error and with an
empty mapping — finalizing the collected entries commits for every slot
its own deterministic winner, and the finalized day (meals in order,
today-used ids, day tokens, day dish types) equals the day produced by
the non-batch path with reranking disabled from the same day-start
state; the warning and applied-default lists of the two passes are also
equal, so no warning referencing the remote failure is ever added.  (A
truthy non-object body instead raises an uncaught AttributeError out of
rerank_batch, hence the completed-extraction hypothesis.) -/
theorem batch_failure_equivalence (dc : DayCtx) (topK : Nat) (used : Finset String)
    (ws ds : List String) (res : Option JVal) (bm : List (String × JVal))
    (hres : rerank_batch_extract res = Except.ok bm) (hbm : bm = []) :
    finalize_batch_day
        (run_day_batch dc topK (meal_types_for dc.parsed) (day_init used ws ds)).2
        bm used =
      Except.ok
        ⟨(run_day_single dc (meal_types_for dc.parsed) (day_init used ws ds)).meals,
         (run_day_single dc (meal_types_for dc.parsed) (day_init used ws ds)).usedToday,
         (run_day_single dc (meal_types_for dc.parsed) (day_init used ws ds)).dayTokens,
         (run_day_single dc (meal_types_for dc.parsed) (day_init used ws ds)).dayDishTypes⟩ ∧
    (run_day_batch dc topK (meal_types_for dc.parsed) (day_init used ws ds)).1.warnings =
      (run_day_single dc (meal_types_for dc.parsed) (day_init used ws ds)).warnings ∧
    (run_day_batch dc topK (meal_types_for dc.parsed) (day_init used ws ds)).1.defaults =
      (run_day_single dc (meal_types_for dc.parsed) (day_init used ws ds)).defaults := by
  subst hbm
  have h := run_day_sim dc topK (meal_types_for dc.parsed) (day_init used ws ds)
  refine ⟨h.2, ?_, ?_⟩
  · rw [h.1]
  · rw [h.1]

/-- C3 witness: with the sample two-recipe catalog, a failed remote
batch call extracts to the empty mapping with no error, and finalizing
it yields exactly the deterministic day. -/
theorem batch_failure_equivalence_witness :
    rerank_batch_extract none = Except.ok [] ∧
    finalize_batch_day
        (run_day_batch dcSample 10 (meal_types_for dcSample.parsed) (day_init ∅ [] [])).2
        [] ∅ =
      Except.ok
        ⟨(run_day_single dcSample (meal_types_for dcSample.parsed) (day_init ∅ [] [])).meals,
         (run_day_single dcSample (meal_types_for dcSample.parsed)
           (day_init ∅ [] [])).usedToday,
         (run_day_single dcSample (meal_types_for dcSample.parsed)
           (day_init ∅ [] [])).dayTokens,
         (run_day_single dcSample (meal_types_for dcSample.parsed)
           (day_init ∅ [] [])).dayDishTypes⟩ :=
  ⟨rfl, (batch_failure_equivalence dcSample 10 ∅ [] [] none [] rfl rfl).1⟩

/-- C3 counterexample: a truthy remote body that is not a JSON object —
here a bare JSON array — carries no usable selections, yet rerank_batch
does not fall back on it: result.get is called on the non-dict body and
raises an uncaught AttributeError, so no finalized day is produced at
all, let alone one equal to the rerank-disabled day (a failed call, by
contrast, extracts to the empty mapping without error). -/
theorem batch_failure_equivalence_counterexample :
    jvalTruthy (JVal.jarr [JVal.jnum 1]) = true ∧
    rerank_batch_extract (some (JVal.jarr [JVal.jnum 1])) = Except.error () ∧
    rerank_batch_extract none = Except.ok [] :=
  ⟨by decide, rfl, rfl⟩

/-- C8: the emitted summary carries the total meal count and the average
prep time, but not the collected warnings, applied fallbacks, or the
preference/exclusion echo — the planner constructs MealPlanSummary
without passing the warnings and defaults_applied lists it accumulated
(and passes the combined preferences under a keyword the pydantic model
does not declare), so those summary fields are always their empty
defaults.  Concretely, a one-day request with no candidates accumulates
three no-candidate warnings, yet the summary built from that run has an
empty warnings list. -/
theorem plan_summary_drops_lists :
    (∀ (mealPlan : List (List Meal)) (parsed : ParsedQuery) (ws ds : List String),
      (plan_summary mealPlan parsed ws ds).warnings = [] ∧
      (plan_summary mealPlan parsed ws ds).defaults_applied = [] ∧
      (plan_summary mealPlan parsed ws ds).preferences = [] ∧
      (plan_summary mealPlan parsed ws ds).exclusions = [] ∧
      (plan_summary mealPlan parsed ws ds).total_meals = total_meals_count mealPlan ∧
      (plan_summary mealPlan parsed ws ds).avg_prep_time = avg_prep_string mealPlan) ∧
    (run_day_single emptyDayCtx (meal_types_for pq0) (day_init ∅ [] [])).warnings =
      [no_candidates_warning 1 "breakfast", no_candidates_warning 1 "lunch",
       no_candidates_warning 1 "dinner"] ∧
    (run_day_single emptyDayCtx (meal_types_for pq0) (day_init ∅ [] [])).warnings ≠ [] ∧
    (plan_summary [(run_day_single emptyDayCtx (meal_types_for pq0) (day_init ∅ [] [])).meals]
        pq0
        (run_day_single emptyDayCtx (meal_types_for pq0) (day_init ∅ [] [])).warnings
        (run_day_single emptyDayCtx (meal_types_for pq0) (day_init ∅ [] [])).defaults).warnings =
      [] := by
  refine ⟨fun mealPlan parsed ws ds => ⟨rfl, rfl, rfl, rfl, rfl, rfl⟩, by decide, by decide, rfl⟩

end Nutrivo
